import Mathlib

/-!
Verification of the concurrent data plane of a Bitcoin JSON-RPC dashboard
client (Rust).  The sections below give a shallow embedding of the relevant
source functions: the JSON value model, the host-safety predicate (URL host
extraction plus the Rust standard library IP-literal parser and address
classification), the RPC batch path, the configuration-update handler, the
dashboard snapshot builder, the bounded ZMQ event buffer, and the refresh
coordinator of the GUI app.  Theorems about the claims follow the
definitions.
-/

/-! ## JSON value model (serde_json values as consumed by the code) -/

/-- A JSON number as held by serde_json: an unsigned 64-bit integer, a
negative 64-bit integer, or a double.  Since no verified property inspects
the value of a double, a double is represented opaquely by a bit pattern. -/
inductive JNumber where
  | posInt (n : Nat)
  | negInt (n : Int)
  | double (bits : Nat)
deriving DecidableEq

/-- A JSON value tree. -/
inductive JValue where
  | null
  | bool (b : Bool)
  | num (n : JNumber)
  | str (s : String)
  | arr (items : List JValue)
  | obj (fields : List (String × JValue))

/-- Object field lookup (first binding wins, as in a map without duplicate
keys). -/
def jlookup : List (String × JValue) → String → Option JValue
  | [], _ => none
  | (k, v) :: rest, key => if k = key then some v else jlookup rest key

/-- `Value::get(key)`: `Some` only on objects holding the key. -/
def JValue.get (v : JValue) (key : String) : Option JValue :=
  match v with
  | .obj fields => jlookup fields key
  | _ => none

/-- `value[key]` indexing: yields `Null` on a missing key or a non-object. -/
def JValue.index (v : JValue) (key : String) : JValue :=
  (v.get key).getD .null

/-- `Value::as_str`. -/
def JValue.asStr : JValue → Option String
  | .str s => some s
  | _ => none

/-- `Number::as_u64`. -/
def JNumber.asU64 : JNumber → Option Nat
  | .posInt n => some n
  | _ => none

/-- `Number::as_i64`: a positive integer qualifies only below `2^63`. -/
def JNumber.asI64 : JNumber → Option Int
  | .posInt n => if n < 2 ^ 63 then some (n : Int) else none
  | .negInt i => some i
  | .double _ => none

/-- `Value::as_u64`. -/
def JValue.asU64 : JValue → Option Nat
  | .num n => n.asU64
  | _ => none

/-- `Value::as_i64`. -/
def JValue.asI64 : JValue → Option Int
  | .num n => n.asI64
  | _ => none

/-- `Value::as_f64`: succeeds on every number.  The resulting double is
represented by the source number itself, since no verified property
inspects double values. -/
def JValue.asF64 : JValue → Option JNumber
  | .num n => some n
  | _ => none

/-- `Value::as_bool`. -/
def JValue.asBool : JValue → Option Bool
  | .bool b => some b
  | _ => none

/-- `Value::as_array`. -/
def JValue.asArray : JValue → Option (List JValue)
  | .arr items => some items
  | _ => none

/-- `Value::as_object`. -/
def JValue.asObject : JValue → Option (List (String × JValue))
  | .obj fields => some fields
  | _ => none

/-- `Value::is_null`. -/
def JValue.isNull : JValue → Bool
  | .null => true
  | _ => false

/-! ## Host-safety predicate (src/rpc.rs and src/core/rpc_client.rs)

The URL authority is extracted with plain string operations, then the host
is compared with the literal `localhost` and otherwise parsed as an IP
literal using the Rust standard library parser, modelled faithfully below
on lists of characters. -/

/-- ASCII lower-casing of one character, as in `eq_ignore_ascii_case`. -/
def asciiLower (c : Char) : Char :=
  if 'A' ≤ c ∧ c ≤ 'Z' then Char.ofNat (c.toNat + 32) else c

/-- `str::eq_ignore_ascii_case` on character lists. -/
def eqIgnoreAsciiCase (a b : List Char) : Bool :=
  a.map asciiLower == b.map asciiLower

/-- The suffix following the first occurrence of `pat` (nonempty), as in
`url.find(pat)` followed by slicing after the pattern; `none` when the
pattern does not occur. -/
def afterFirstOcc (pat : List Char) : List Char → Option (List Char)
  | [] => none
  | c :: rest =>
    if List.isPrefixOf pat (c :: rest) then some (List.drop pat.length (c :: rest))
    else afterFirstOcc pat rest

/-- `s.split(ch).next()`: the prefix before the first `ch`. -/
def takeUntilChar (ch : Char) (l : List Char) : List Char :=
  l.takeWhile (· ≠ ch)

/-- `s.rsplit(ch).next()`: the suffix after the last `ch`. -/
def afterLastChar (ch : Char) (l : List Char) : List Char :=
  (l.reverse.takeWhile (· ≠ ch)).reverse

/-- Host extraction of `is_safe_rpc_host`: take the part after `://`, cut
at the first `/` and `?`, keep the part after the last `@`, then unwrap a
bracketed IPv6 literal or cut at the first `:` (port). -/
def extract_host (url : List Char) : Option (List Char) :=
  match afterFirstOcc [':', '/', '/'] url with
  | none => none
  | some rest =>
    let rest := takeUntilChar '/' rest
    let rest := takeUntilChar '?' rest
    let rest := afterLastChar '@' rest
    if rest.head? = some '[' then
      some (takeUntilChar ']' (rest.dropWhile (· = '[')))
    else
      some (takeUntilChar ':' rest)

/-- `char::to_digit(radix)`. -/
def digitVal (radix : Nat) (c : Char) : Option Nat :=
  let d :=
    if '0' ≤ c ∧ c ≤ '9' then some (c.toNat - '0'.toNat)
    else if 'a' ≤ c ∧ c ≤ 'z' then some (c.toNat - 'a'.toNat + 10)
    else if 'A' ≤ c ∧ c ≤ 'Z' then some (c.toNat - 'A'.toNat + 10)
    else none
  match d with
  | some v => if v < radix then some v else none
  | none => none

/-- Digit-consuming loop of the std `Parser::read_number`: accumulates
digits, failing on overflow past `maxVal` (the checked arithmetic of the
target integer width) or on more than `maxDigits` digits; stops at the
first non-digit, returning the value, the digit count and the rest. -/
def readDigitsLoop (radix maxVal : Nat) (maxDigits : Option Nat) :
    List Char → Nat → Nat → Option (Nat × Nat × List Char)
  | [], acc, count => some (acc, count, [])
  | c :: rest, acc, count =>
    match digitVal radix c with
    | none => some (acc, count, c :: rest)
    | some d =>
      let acc' := acc * radix + d
      if maxVal < acc' then none
      else
        match maxDigits with
        | some m =>
          if m < count + 1 then none
          else readDigitsLoop radix maxVal maxDigits rest acc' (count + 1)
        | none => readDigitsLoop radix maxVal maxDigits rest acc' (count + 1)

/-- The std `Parser::read_number`: at least one digit, optional rejection
of a leading zero, failure restores the input (modelled by returning
`none`). -/
def read_number (radix maxVal : Nat) (maxDigits : Option Nat) (allowZeroPrefix : Bool)
    (l : List Char) : Option (Nat × List Char) :=
  let hasLeadingZero := l.head? = some '0'
  match readDigitsLoop radix maxVal maxDigits l 0 0 with
  | none => none
  | some (v, count, rest) =>
    if count = 0 then none
    else if ¬allowZeroPrefix ∧ hasLeadingZero ∧ 1 < count then none
    else some (v, rest)

/-- An IPv4 address as four octets. -/
structure Ipv4Addr where
  a : Nat
  b : Nat
  c : Nat
  d : Nat
deriving DecidableEq

/-- An IPv6 address as eight 16-bit segments. -/
structure Ipv6Addr where
  s0 : Nat
  s1 : Nat
  s2 : Nat
  s3 : Nat
  s4 : Nat
  s5 : Nat
  s6 : Nat
  s7 : Nat
deriving DecidableEq

/-- `IpAddr`. -/
inductive IpAddr where
  | v4 (addr : Ipv4Addr)
  | v6 (addr : Ipv6Addr)
deriving DecidableEq

/-- Consume one expected character. -/
def expectChar (c : Char) : List Char → Option (List Char)
  | [] => none
  | x :: rest => if x = c then some rest else none

/-- The std `Parser::read_ipv4_addr`: four dot-separated decimal octets,
each at most 3 digits, at most 255, with no leading zero. -/
def read_ipv4 (l : List Char) : Option (Ipv4Addr × List Char) :=
  match read_number 10 255 (some 3) false l with
  | none => none
  | some (a, l1) =>
    match expectChar '.' l1 with
    | none => none
    | some l2 =>
      match read_number 10 255 (some 3) false l2 with
      | none => none
      | some (b, l3) =>
        match expectChar '.' l3 with
        | none => none
        | some l4 =>
          match read_number 10 255 (some 3) false l4 with
          | none => none
          | some (c, l5) =>
            match expectChar '.' l5 with
            | none => none
            | some l6 =>
              match read_number 10 255 (some 3) false l6 with
              | none => none
              | some (d, l7) => some (⟨a, b, c, d⟩, l7)

/-- The group separator of `read_groups`: nothing before the first group,
a colon before every later one. -/
def groupSep (isFirst : Bool) (l : List Char) : Option (List Char) :=
  if isFirst then some l else expectChar ':' l

/-- A trailing embedded IPv4 address standing for the last two 16-bit
groups of an IPv6 address. -/
def tryMappedV4 (l : List Char) : Option (Nat × Nat × List Char) :=
  match read_ipv4 l with
  | some (q, rest) => some (q.a * 256 + q.b, q.c * 256 + q.d, rest)
  | none => none

/-- The std `Parser::read_groups`: reads up to `slots` colon-separated
16-bit hex groups (leading zeros allowed, at most 4 digits); when more
than one slot remains, a trailing embedded IPv4 address may stand for the
last two groups.  Returns the groups read, whether an embedded IPv4 ended
the run, and the remaining input (failed reads restore the input). -/
def read_groups_aux (isFirst : Bool) : Nat → List Char → List Nat × Bool × List Char
  | 0, l => ([], false, l)
  | slots + 1, l =>
    match (if 1 ≤ slots then (groupSep isFirst l).bind tryMappedV4 else none) with
    | some (g1, g2, rest) => ([g1, g2], true, rest)
    | none =>
      match (groupSep isFirst l).bind (read_number 16 65535 (some 4) true) with
      | none => ([], false, l)
      | some (g, rest) =>
        match read_groups_aux false slots rest with
        | (gs, sawV4, rest2) => (g :: gs, sawV4, rest2)

/-- Assemble an `Ipv6Addr` from a list of exactly eight groups (missing
entries read as zero). -/
def ipv6OfGroups (gs : List Nat) : Ipv6Addr :=
  ⟨gs.getD 0 0, gs.getD 1 0, gs.getD 2 0, gs.getD 3 0,
   gs.getD 4 0, gs.getD 5 0, gs.getD 6 0, gs.getD 7 0⟩

/-- The std `Parser::read_ipv6_addr`: head groups, then `::` followed by
tail groups standing for at least one zero group; an embedded IPv4 is only
allowed at the very end. -/
def read_ipv6 (l : List Char) : Option (Ipv6Addr × List Char) :=
  match read_groups_aux true 8 l with
  | (head, headV4, rest) =>
    if head.length = 8 then some (ipv6OfGroups head, rest)
    else if headV4 then none
    else
      match expectChar ':' rest with
      | none => none
      | some r1 =>
        match expectChar ':' r1 with
        | none => none
        | some r2 =>
          match read_groups_aux true (8 - (head.length + 1)) r2 with
          | (tail, _, r3) =>
            some (ipv6OfGroups
              (head ++ List.replicate (8 - head.length - tail.length) 0 ++ tail), r3)

/-- `host.parse::<IpAddr>()`: a full-string IPv4 parse, else a full-string
IPv6 parse. -/
def parse_ip (host : List Char) : Option IpAddr :=
  match read_ipv4 host with
  | some (q, []) => some (.v4 q)
  | _ =>
    match read_ipv6 host with
    | some (q, []) => some (.v6 q)
    | _ => none

/-- `Ipv4Addr::is_loopback`: `127.0.0.0/8`. -/
def Ipv4Addr.is_loopback (ip : Ipv4Addr) : Bool :=
  ip.a == 127

/-- `Ipv4Addr::is_private`: the RFC1918 ranges. -/
def Ipv4Addr.is_private (ip : Ipv4Addr) : Bool :=
  ip.a == 10 || (ip.a == 172 && (16 ≤ ip.b && ip.b ≤ 31)) || (ip.a == 192 && ip.b == 168)

/-- `is_cgnat` from the source: `100.64.0.0/10`. -/
def is_cgnat (ip : Ipv4Addr) : Bool :=
  ip.a == 100 && (64 ≤ ip.b && ip.b ≤ 127)

/-- `Ipv6Addr::is_loopback`: `::1`. -/
def Ipv6Addr.is_loopback (ip : Ipv6Addr) : Bool :=
  ip.s0 == 0 && ip.s1 == 0 && ip.s2 == 0 && ip.s3 == 0 &&
  ip.s4 == 0 && ip.s5 == 0 && ip.s6 == 0 && ip.s7 == 1

/-- `Ipv6Addr::is_unique_local`: first segment masked with `0xfe00` equals
`0xfc00` (`fc00::/7`). -/
def Ipv6Addr.is_unique_local (ip : Ipv6Addr) : Bool :=
  ip.s0 &&& 0xfe00 == 0xfc00

/-- `Ipv6Addr::is_unicast_link_local`: first segment masked with `0xffc0`
equals `0xfe80` (`fe80::/10`). -/
def Ipv6Addr.is_unicast_link_local (ip : Ipv6Addr) : Bool :=
  ip.s0 &&& 0xffc0 == 0xfe80

/-- `Ipv6Addr::to_ipv4_mapped`: `::ffff:a.b.c.d`. -/
def Ipv6Addr.to_ipv4_mapped (ip : Ipv6Addr) : Option Ipv4Addr :=
  if ip.s0 == 0 && ip.s1 == 0 && ip.s2 == 0 && ip.s3 == 0 &&
     ip.s4 == 0 && ip.s5 == 0xffff then
    some ⟨ip.s6 / 256, ip.s6 % 256, ip.s7 / 256, ip.s7 % 256⟩
  else none

/-- IP classification of `is_safe_rpc_host` in `src/core/rpc_client.rs`:
an IPv4-mapped address passes only when the mapped IPv4 is loopback or
private. -/
def is_safe_rpc_ip_client : IpAddr → Bool
  | .v4 q => q.is_loopback || q.is_private || is_cgnat q
  | .v6 q =>
    q.is_loopback || q.is_unique_local || q.is_unicast_link_local ||
      (match q.to_ipv4_mapped with
       | some m => m.is_loopback || m.is_private
       | none => false)

/-- IP classification `is_safe_rpc_ip` in `src/rpc.rs`: the recursive call
on an IPv4-mapped address lands in the V4 arm, so the mapped IPv4 also
passes when it is CGNAT (unfolded here). -/
def is_safe_rpc_ip_config : IpAddr → Bool
  | .v4 q => q.is_loopback || q.is_private || is_cgnat q
  | .v6 q =>
    q.is_loopback || q.is_unique_local || q.is_unicast_link_local ||
      (match q.to_ipv4_mapped with
       | some m => m.is_loopback || m.is_private || is_cgnat m
       | none => false)

/-- Common frame of both `is_safe_rpc_host` copies: extract the authority
host, always accept the literal `localhost` (ASCII case-insensitive), and
otherwise classify a parsed IP literal; everything else is rejected. -/
def hostSafeWith (ipSafe : IpAddr → Bool) (url : List Char) : Bool :=
  match extract_host url with
  | none => false
  | some host =>
    if eqIgnoreAsciiCase host ("localhost".data) then true
    else
      match parse_ip host with
      | some ip => ipSafe ip
      | none => false

/-- `is_safe_rpc_host` of `src/core/rpc_client.rs`. -/
def is_safe_rpc_host_client (url : String) : Bool :=
  hostSafeWith is_safe_rpc_ip_client url.data

/-- `is_safe_rpc_host` of `src/rpc.rs` (used by `update_config`). -/
def is_safe_rpc_host_config (url : String) : Bool :=
  hostSafeWith is_safe_rpc_ip_config url.data

/-! Spec-side phrasing of the host-safety classes, written from the
claim's words: loopback `127/8`, RFC1918 private, carrier-grade NAT
`100.64.0.0/10`, IPv6 loopback, unique-local `fc00::/7` as a range on the
first segment, link-local `fe80::/10` as a range on the first segment,
and an IPv4-mapped address whose mapped IPv4 is private or loopback. -/

/-- Spec: RFC1918 private ranges `10.x`, `172.16-31.x`, `192.168.x`. -/
def specRfc1918 (ip : Ipv4Addr) : Prop :=
  ip.a = 10 ∨ (ip.a = 172 ∧ 16 ≤ ip.b ∧ ip.b ≤ 31) ∨ (ip.a = 192 ∧ ip.b = 168)

/-- Spec: carrier-grade NAT `100.64.0.0/10`. -/
def specCgnat (ip : Ipv4Addr) : Prop :=
  ip.a = 100 ∧ 64 ≤ ip.b ∧ ip.b ≤ 127

/-- Spec: safe IPv4 literals. -/
def specSafeV4 (ip : Ipv4Addr) : Prop :=
  ip.a = 127 ∨ specRfc1918 ip ∨ specCgnat ip

/-- Spec: safe IPv6 literals as the claim lists them — loopback,
unique-local, link-local, or IPv4-mapped with the mapped address private
or loopback. -/
def specSafeV6 (ip : Ipv6Addr) : Prop :=
  ip = ⟨0, 0, 0, 0, 0, 0, 0, 1⟩ ∨
  (0xfc00 ≤ ip.s0 ∧ ip.s0 ≤ 0xfdff) ∨
  (0xfe80 ≤ ip.s0 ∧ ip.s0 ≤ 0xfebf) ∨
  (∃ m, ip.to_ipv4_mapped = some m ∧ (m.a = 127 ∨ specRfc1918 m))

/-- Spec: safe IP literals exactly as the claim lists them. -/
def specSafeIp : IpAddr → Prop
  | .v4 q => specSafeV4 q
  | .v6 q => specSafeV6 q

/-- Spec: safe IPv6 literals for the `src/rpc.rs` copy — the mapped IPv4
may additionally be CGNAT. -/
def specSafeV6Config (ip : Ipv6Addr) : Prop :=
  ip = ⟨0, 0, 0, 0, 0, 0, 0, 1⟩ ∨
  (0xfc00 ≤ ip.s0 ∧ ip.s0 ≤ 0xfdff) ∨
  (0xfe80 ≤ ip.s0 ∧ ip.s0 ≤ 0xfebf) ∨
  (∃ m, ip.to_ipv4_mapped = some m ∧ (m.a = 127 ∨ specRfc1918 m ∨ specCgnat m))

/-- Spec: safe IP literals for the `src/rpc.rs` copy. -/
def specSafeIpConfig : IpAddr → Prop
  | .v4 q => specSafeV4 q
  | .v6 q => specSafeV6Config q


/-- The segment-width invariant of parsed IPv6 literals (only the first
segment is inspected by the masked classifications). -/
def ipSeg0Bounded : IpAddr → Prop
  | .v4 _ => True
  | .v6 q => q.s0 < 65536

/-- Spec: the host-safety acceptance condition of the claim, relative to a
classification of parsed IP literals: the parsed authority host is the
literal `localhost` (case-insensitive) or an accepted IP literal; every
other host (or a URL without `://`) is rejected. -/
def specSafeUrl (ipSpec : IpAddr → Prop) (url : String) : Prop :=
  ∃ host, extract_host url.data = some host ∧
    (eqIgnoreAsciiCase host ("localhost".data) = true ∨
     ∃ ip, parse_ip host = some ip ∧ ipSpec ip)

/-! ## Configuration update (src/rpc.rs) -/

/-- `rust: char::is_whitespace` (the Unicode White_Space set), as used by
`str::trim`. -/
def isRustWhitespace (c : Char) : Bool :=
  decide ((9 ≤ c.toNat ∧ c.toNat ≤ 13) ∨ c.toNat = 32 ∨ c.toNat = 0x85 ∨
    c.toNat = 0xA0 ∨ c.toNat = 0x1680 ∨ (0x2000 ≤ c.toNat ∧ c.toNat ≤ 0x200A) ∨
    c.toNat = 0x2028 ∨ c.toNat = 0x2029 ∨ c.toNat = 0x202F ∨ c.toNat = 0x205F ∨
    c.toNat = 0x3000)

/-- `str::trim`. -/
def trimChars (l : List Char) : List Char :=
  ((l.dropWhile isRustWhitespace).reverse.dropWhile isRustWhitespace).reverse

/-- Digit loop of `usize::from_str` (64-bit): checked accumulation failing
on a non-digit or on overflow past `2^64 - 1`. -/
def parseUsizeLoop : List Char → Nat → Option Nat
  | [], acc => some acc
  | c :: rest, acc =>
    match digitVal 10 c with
    | none => none
    | some d =>
      if acc * 10 + d < 2 ^ 64 then parseUsizeLoop rest (acc * 10 + d) else none

/-- `str::parse::<usize>()`: optional leading `+`, then at least one
decimal digit, no overflow. -/
def rustParseUsize (l : List Char) : Option Nat :=
  match l with
  | [] => none
  | '+' :: rest => if rest.isEmpty then none else parseUsizeLoop rest 0
  | _ => parseUsizeLoop l 0

/-- `u64::clamp(lo, hi)` on naturals. -/
def natClamp (x lo hi : Nat) : Nat :=
  if x < lo then lo else if hi < x then hi else x

/-- `parse_usize` from `src/rpc.rs`: a JSON unsigned integer (64-bit
`usize::try_from` always succeeds), else a trimmed decimal string. -/
def parse_usize (v : JValue) : Option Nat :=
  match v.asU64 with
  | some n => some n
  | none => v.asStr.bind (fun s => rustParseUsize (trimChars s.data))

def DEFAULT_ZMQ_BUFFER_LIMIT : Nat := 5000

def MIN_ZMQ_BUFFER_LIMIT : Nat := 50

def MAX_ZMQ_BUFFER_LIMIT : Nat := 100000

/-- `RpcConfig` of `src/rpc.rs` (the shared, mutex-guarded configuration
of the webview app). -/
structure RpcConfig where
  url : String
  user : String
  password : String
  wallet : String
  zmq_address : String
  zmq_buffer_limit : Nat
deriving DecidableEq

/-- `RpcConfig::default`. -/
def RpcConfig.default : RpcConfig :=
  ⟨"http://127.0.0.1:8332", "", "", "", "", DEFAULT_ZMQ_BUFFER_LIMIT⟩

/-- `ConfigUpdateResult`. -/
structure ConfigUpdateResult where
  zmq_changed : Bool
  insecure_blocked : Bool
deriving DecidableEq

/-- The tail of `update_config` from `src/rpc.rs` after the URL step: the
user, password, wallet, feed-address and buffer-limit field updates, in
source order, returning the updated configuration and `zmq_changed`. -/
def update_config_rest (msg : JValue) (cfg1 : RpcConfig) : RpcConfig × Bool :=
  let cfg2 :=
    match (msg.index "user").asStr with
    | some user => { cfg1 with user := user }
    | none => cfg1
  let cfg3 :=
    match (msg.index "password").asStr with
    | some password => { cfg2 with password := password }
    | none => cfg2
  let cfg4 :=
    match (msg.index "wallet").asStr with
    | some wallet => { cfg3 with wallet := wallet }
    | none => cfg3
  let zmqStep : RpcConfig × Bool :=
    match (msg.index "zmq_address").asStr with
    | some addr =>
      if cfg4.zmq_address ≠ addr then ({ cfg4 with zmq_address := addr }, true)
      else (cfg4, false)
    | none => (cfg4, false)
  let cfg5 := zmqStep.1
  let cfg6 :=
    match parse_usize (msg.index "zmq_buffer_limit") with
    | some limit =>
      { cfg5 with zmq_buffer_limit := natClamp limit MIN_ZMQ_BUFFER_LIMIT MAX_ZMQ_BUFFER_LIMIT }
    | none => cfg5
  (cfg6, zmqStep.2)

/-- `update_config` from `src/rpc.rs`.  The body string's JSON parse
(serde_json, an external library) is abstracted into the `parsedBody`
argument: `none` is a body that is not valid JSON.  The process-wide
`allow_insecure` flag is passed explicitly.  Returns the new configuration
and the update result. -/
def update_config (allow_insecure : Bool) (parsedBody : Option JValue)
    (cfg : RpcConfig) : RpcConfig × ConfigUpdateResult :=
  match parsedBody with
  | none => (cfg, ⟨false, false⟩)
  | some msg =>
    let urlStep : RpcConfig × Bool :=
      match (msg.index "url").asStr with
      | some url =>
        if is_safe_rpc_host_config url || allow_insecure then ({ cfg with url := url }, false)
        else (cfg, true)
      | none => (cfg, false)
    let rest := update_config_rest msg urlStep.1
    (rest.1, ⟨rest.2, urlStep.2⟩)

/-! ## RPC client batch path (src/core/rpc_client.rs) -/

/-- `RpcError`. -/
inductive RpcError where
  | InvalidRequest (message : String)
  | Transport (message : String)
  | InvalidResponse (message : String)
  | Rpc (code : Option Int) (message : String) (data : Option JValue)

/-- `RpcCall`. -/
structure RpcCall where
  id : JValue
  method : String
  params : JValue

/-- `extract_result`: a non-null `error` member maps to the `Rpc` error,
otherwise the `result` member is extracted, its absence being an
`InvalidResponse`. -/
def extract_result (response : JValue) : Except RpcError JValue :=
  if (response.get "error").isSome && !(response.index "error").isNull then
    .error (.Rpc ((response.index "error").index "code").asI64
      (match ((response.index "error").index "message").asStr with
       | some s => s
       | none => "unknown rpc error")
      ((response.index "error").get "data"))
  else
    match response.get "result" with
    | some r => .ok r
    | none => .error (.InvalidResponse "missing result field")

/-- The request envelope built by `batch` for one call. -/
def batchEnvelope (call : RpcCall) : JValue :=
  .obj [("jsonrpc", .str "2.0"), ("id", call.id),
        ("method", .str call.method), ("params", call.params)]

/-- The posted batch payload: a JSON array of envelopes in call order. -/
def batchPayload (calls : List RpcCall) : JValue :=
  .arr (calls.map batchEnvelope)

/-- `array.iter().map(extract_result).collect()`: unwraps each element in
order, stopping at the first failing element. -/
def collectResults : List JValue → Except RpcError (List JValue)
  | [] => .ok []
  | x :: xs =>
    match extract_result x with
    | .error e => .error e
    | .ok r =>
      match collectResults xs with
      | .error e => .error e
      | .ok rs => .ok (r :: rs)

/-- `RpcClient::batch`.  The HTTP post (`post_json`) is abstracted into
the `post` argument mapping the posted payload to the node's decoded JSON
reply (or a transport / invalid-response failure). -/
def batch (calls : List RpcCall) (post : JValue → Except RpcError JValue) :
    Except RpcError (List JValue) :=
  if calls.isEmpty then .ok []
  else
    match post (batchPayload calls) with
    | .error e => .error e
    | .ok response =>
      match response.asArray with
      | none => .error (.InvalidResponse "expected batch array response")
      | some items => collectResults items

/-! ## Dashboard snapshot builder (src/core/dashboard_service.rs) -/

/-- `ChainSummary` (`verification_progress` is an `f64`; doubles are
carried as the source JSON number, see `JValue.asF64`). -/
structure ChainSummary where
  chain : String
  blocks : Nat
  headers : Nat
  verification_progress : JNumber

/-- `MempoolSummary`. -/
structure MempoolSummary where
  transactions : Nat
  bytes : Nat
  usage : Nat
  maxmempool : Nat

/-- `NetworkSummary`. -/
structure NetworkSummary where
  version : Int
  subversion : String
  protocol_version : Int
  connections : Int

/-- `TrafficSummary`. -/
structure TrafficSummary where
  total_bytes_recv : Nat
  total_bytes_sent : Nat

/-- `PeerSummary`. -/
structure PeerSummary where
  id : Int
  addr : String
  subver : String
  network : String
  services : String
  transport_version : Nat
  inbound : Bool
  connection_type : String
  min_ping : Option JNumber
  ping_time : Option JNumber
  last_send : Int
  last_recv : Int
  last_transaction : Int
  last_block : Int
  conn_time : Int
  is_tx_relay : Bool
  is_bip152_hb_to : Bool
  is_bip152_hb_from : Bool
  addr_processed : Int
  addr_rate_limited : Int
  is_addr_relay_enabled : Bool
  version : Int

/-- `DashboardSnapshot` (`peer_details` is a `BTreeMap<i64, Value>`,
modelled as an association list updated by replacement; no verified
property inspects its ordering). -/
structure DashboardSnapshot where
  chain : ChainSummary
  mempool : MempoolSummary
  network : NetworkSummary
  traffic : TrafficSummary
  peers : List PeerSummary
  peer_details : List (Int × JValue)
  uptime_secs : Nat

/-- Map insertion with replacement, for the `peer_details` map. -/
def mapInsert (m : List (Int × JValue)) (k : Int) (v : JValue) : List (Int × JValue) :=
  m.filter (fun kv => kv.1 ≠ k) ++ [(k, v)]

/-- `field` from `src/core/dashboard_service.rs`: typed extraction of one
object field, failing closed with `InvalidResponse`. -/
def fieldE {α : Type} (obj : List (String × JValue)) (key : String)
    (extract : JValue → Option α) (label : String) : Except RpcError α :=
  match (jlookup obj key).bind extract with
  | some v => .ok v
  | none => .error (.InvalidResponse ("missing " ++ label ++ " field: " ++ key))

/-- `string` from `src/core/dashboard_service.rs` (`str::to_owned` is the
identity here). -/
def stringE (obj : List (String × JValue)) (key : String) : Except RpcError String :=
  fieldE obj key JValue.asStr "string"

/-- The compact service-flag code of one service name. -/
def serviceChar (name : String) : Char :=
  if name = "NETWORK_LIMITED" then 'l'
  else if name = "P2P_V2" then '2'
  else asciiLower (name.data.head?.getD '?')

/-- `format_services`: a non-array (or missing) `servicesnames` yields the
empty string; otherwise each string entry is mapped to its compact code. -/
def format_services (servicesnames : Option JValue) : String :=
  match servicesnames.bind JValue.asArray with
  | none => ""
  | some entries => String.mk ((entries.filterMap JValue.asStr).map serviceChar)

/-- `parse_chain`. -/
def parse_chain (value : JValue) : Except RpcError ChainSummary :=
  match value.asObject with
  | none => .error (.InvalidResponse "getblockchaininfo result must be object")
  | some blockchain =>
    match stringE blockchain "chain" with
    | .error e => .error e
    | .ok chain =>
      match fieldE blockchain "blocks" JValue.asU64 "u64" with
      | .error e => .error e
      | .ok blocks =>
        match fieldE blockchain "headers" JValue.asU64 "u64" with
        | .error e => .error e
        | .ok headers =>
          match fieldE blockchain "verificationprogress" JValue.asF64 "f64" with
          | .error e => .error e
          | .ok vp => .ok ⟨chain, blocks, headers, vp⟩

/-- `parse_mempool`. -/
def parse_mempool (value : JValue) : Except RpcError MempoolSummary :=
  match value.asObject with
  | none => .error (.InvalidResponse "getmempoolinfo result must be object")
  | some mempool =>
    match fieldE mempool "size" JValue.asU64 "u64" with
    | .error e => .error e
    | .ok transactions =>
      match fieldE mempool "bytes" JValue.asU64 "u64" with
      | .error e => .error e
      | .ok bytes =>
        match fieldE mempool "usage" JValue.asU64 "u64" with
        | .error e => .error e
        | .ok usage =>
          match fieldE mempool "maxmempool" JValue.asU64 "u64" with
          | .error e => .error e
          | .ok maxmempool => .ok ⟨transactions, bytes, usage, maxmempool⟩

/-- The `NetworkSummary` field extraction of `build_snapshot` (inline in
the source, in this order). -/
def parse_network (obj : List (String × JValue)) : Except RpcError NetworkSummary :=
  match fieldE obj "version" JValue.asI64 "i64" with
  | .error e => .error e
  | .ok version =>
    match stringE obj "subversion" with
    | .error e => .error e
    | .ok subversion =>
      match fieldE obj "protocolversion" JValue.asI64 "i64" with
      | .error e => .error e
      | .ok protocol_version =>
        match fieldE obj "connections" JValue.asI64 "i64" with
        | .error e => .error e
        | .ok connections => .ok ⟨version, subversion, protocol_version, connections⟩

/-- The `TrafficSummary` field extraction of `build_snapshot` (inline in
the source). -/
def parse_traffic (obj : List (String × JValue)) : Except RpcError TrafficSummary :=
  match fieldE obj "totalbytesrecv" JValue.asU64 "u64" with
  | .error e => .error e
  | .ok rx =>
    match fieldE obj "totalbytessent" JValue.asU64 "u64" with
    | .error e => .error e
    | .ok tx => .ok ⟨rx, tx⟩

/-- One iteration of the peer loop of `build_snapshot`: a non-object
entry, or an object entry without an `i64` field `id`, is skipped
(`none`); every other field falls back to a default when missing or
ill-typed.  `as u8` on `transport_protocol_type` truncates modulo 256. -/
def peerEntry (peer : JValue) : Option (PeerSummary × (Int × JValue)) :=
  match peer.asObject with
  | none => none
  | some obj =>
    match (jlookup obj "id").bind JValue.asI64 with
    | none => none
    | some id =>
      some (⟨id,
        ((jlookup obj "addr").bind JValue.asStr).getD "?",
        ((jlookup obj "subver").bind JValue.asStr).getD "",
        ((jlookup obj "network").bind JValue.asStr).getD "",
        format_services (jlookup obj "servicesnames"),
        (((jlookup obj "transport_protocol_type").bind JValue.asU64).getD 1) % 256,
        ((jlookup obj "inbound").bind JValue.asBool).getD false,
        ((jlookup obj "connection_type").bind JValue.asStr).getD "unknown",
        (jlookup obj "minping").bind JValue.asF64,
        (jlookup obj "pingtime").bind JValue.asF64,
        ((jlookup obj "lastsend").bind JValue.asI64).getD 0,
        ((jlookup obj "lastrecv").bind JValue.asI64).getD 0,
        ((jlookup obj "last_transaction").bind JValue.asI64).getD 0,
        ((jlookup obj "last_block").bind JValue.asI64).getD 0,
        ((jlookup obj "conntime").bind JValue.asI64).getD 0,
        ((jlookup obj "relaytxes").bind JValue.asBool).getD false,
        ((jlookup obj "bip152_hb_to").bind JValue.asBool).getD false,
        ((jlookup obj "bip152_hb_from").bind JValue.asBool).getD false,
        ((jlookup obj "addr_processed").bind JValue.asI64).getD 0,
        ((jlookup obj "addr_rate_limited").bind JValue.asI64).getD 0,
        ((jlookup obj "addr_relay_enabled").bind JValue.asBool).getD false,
        ((jlookup obj "version").bind JValue.asI64).getD 0⟩,
        (id, peer))

/-- The peer loop of `build_snapshot`. -/
def buildPeers (peers : List JValue) : List PeerSummary × List (Int × JValue) :=
  peers.foldl
    (fun acc peer =>
      match peerEntry peer with
      | none => acc
      | some (ps, kv) => (acc.1 ++ [ps], mapInsert acc.2 kv.1 kv.2))
    ([], [])

/-- `DashboardService::build_snapshot`. -/
def build_snapshot (responses : List JValue) : Except RpcError DashboardSnapshot :=
  if responses.length ≠ 6 then
    .error (.InvalidResponse ("expected 6 dashboard responses, got " ++ toString responses.length))
  else
    match (responses.getD 1 .null).asObject with
    | none => .error (.InvalidResponse "getnetworkinfo result must be object")
    | some network_obj =>
      match (responses.getD 3 .null).asArray with
      | none => .error (.InvalidResponse "getpeerinfo result must be array")
      | some peers_list =>
        match (responses.getD 4 .null).asU64 with
        | none => .error (.InvalidResponse "uptime result must be u64")
        | some uptime_secs =>
          match (responses.getD 5 .null).asObject with
          | none => .error (.InvalidResponse "getnettotals result must be object")
          | some traffic_obj =>
            match parse_chain (responses.getD 0 .null) with
            | .error e => .error e
            | .ok chain =>
              match parse_mempool (responses.getD 2 .null) with
              | .error e => .error e
              | .ok mempool =>
                match parse_network network_obj with
                | .error e => .error e
                | .ok network =>
                  match parse_traffic traffic_obj with
                  | .error e => .error e
                  | .ok traffic =>
                    .ok ⟨chain, mempool, network, traffic,
                      (buildPeers peers_list).1, (buildPeers peers_list).2, uptime_secs⟩


/-! Spec-side shape of a full-snapshot response set, written from the
claim's words: every expected field of every sub-response present and of
the expected type, and the response count exactly 6. -/

/-- One expected object field is present and of the expected type. -/
def hasFieldOf {α : Type} (obj : List (String × JValue)) (key : String)
    (extract : JValue → Option α) : Bool :=
  ((jlookup obj key).bind extract).isSome

/-- Spec: the expected shape of a `getblockchaininfo` result. -/
def chainShapeOk (v : JValue) : Bool :=
  match v.asObject with
  | none => false
  | some o =>
    hasFieldOf o "chain" JValue.asStr && hasFieldOf o "blocks" JValue.asU64 &&
    hasFieldOf o "headers" JValue.asU64 && hasFieldOf o "verificationprogress" JValue.asF64

/-- Spec: the expected shape of a `getmempoolinfo` result. -/
def mempoolShapeOk (v : JValue) : Bool :=
  match v.asObject with
  | none => false
  | some o =>
    hasFieldOf o "size" JValue.asU64 && hasFieldOf o "bytes" JValue.asU64 &&
    hasFieldOf o "usage" JValue.asU64 && hasFieldOf o "maxmempool" JValue.asU64

/-- Spec: the expected fields of a `getnetworkinfo` result object. -/
def networkFieldsOk (o : List (String × JValue)) : Bool :=
  hasFieldOf o "version" JValue.asI64 && hasFieldOf o "subversion" JValue.asStr &&
  hasFieldOf o "protocolversion" JValue.asI64 && hasFieldOf o "connections" JValue.asI64

/-- Spec: the expected fields of a `getnettotals` result object. -/
def trafficFieldsOk (o : List (String × JValue)) : Bool :=
  hasFieldOf o "totalbytesrecv" JValue.asU64 && hasFieldOf o "totalbytessent" JValue.asU64

/-- Spec: all expected fields of all six sub-responses are present and of
the expected type (peer entries are unconstrained). -/
def snapshotShapeOk (responses : List JValue) : Bool :=
  responses.length == 6 &&
  chainShapeOk (responses.getD 0 .null) &&
  (match (responses.getD 1 .null).asObject with
   | none => false
   | some o => networkFieldsOk o) &&
  mempoolShapeOk (responses.getD 2 .null) &&
  (responses.getD 3 .null).asArray.isSome &&
  (responses.getD 4 .null).asU64.isSome &&
  (match (responses.getD 5 .null).asObject with
   | none => false
   | some o => trafficFieldsOk o)

/-- Spec: the ids of the peer entries that are objects carrying an `i64`
field `id` — exactly the entries the peer loop keeps. -/
def validPeerIds (peers : List JValue) : List Int :=
  peers.filterMap (fun peer =>
    peer.asObject.bind (fun o => (jlookup o "id").bind JValue.asI64))

/-! ## ZMQ event buffer (src/zmq.rs and src/protocol.rs) -/

/-- `u64::MAX`. -/
def U64MAX : Nat := 2 ^ 64 - 1

/-- `u64::saturating_add(1)`. -/
def satAdd1 (n : Nat) : Nat := min (n + 1) U64MAX

/-- `ZmqMessage`. -/
structure ZmqMessage where
  cursor : Nat
  topic : String
  body_hex : String
  body_size : Nat
  sequence : Nat
  timestamp : Nat
  event_hash : Option String
deriving DecidableEq

/-- The cursor-free payload of one received notification, as decoded by
the receive loop before a cursor is assigned. -/
structure ZmqMsgData where
  topic : String
  body_hex : String
  body_size : Nat
  sequence : Nat
  timestamp : Nat
  event_hash : Option String
deriving DecidableEq

/-- `ZmqState`. -/
structure ZmqState where
  connected : Bool
  address : String
  buffer_limit : Nat
  next_cursor : Nat
  messages : List ZmqMessage
deriving DecidableEq

/-- `ZmqState::default`: disconnected, empty buffer, default limit, next
cursor 1. -/
def ZmqState.default : ZmqState :=
  ⟨false, "", DEFAULT_ZMQ_BUFFER_LIMIT, 1, []⟩

/-- A buffered message assembled from a decoded notification and an
assigned cursor. -/
def mkMsg (d : ZmqMsgData) (cur : Nat) : ZmqMessage :=
  ⟨cur, d.topic, d.body_hex, d.body_size, d.sequence, d.timestamp, d.event_hash⟩

/-- The buffer push of the receive loop in `start_zmq_subscriber`: re-read
the limit (clamped into the safe range), pop the oldest entry when at or
above capacity, assign the next cursor, saturating-increment the counter,
and append. -/
def pushMessage (d : ZmqMsgData) (s : ZmqState) : ZmqState :=
  let limit := natClamp s.buffer_limit MIN_ZMQ_BUFFER_LIMIT MAX_ZMQ_BUFFER_LIMIT
  let msgs := if limit ≤ s.messages.length then s.messages.tail else s.messages
  { s with
    messages := msgs ++ [mkMsg d s.next_cursor],
    next_cursor := satAdd1 s.next_cursor }

/-- The `/config` handler's buffer-limit application in
`src/protocol.rs`: store the new limit and pop from the front while the
length exceeds it. -/
def setBufferLimitTrim (limit : Nat) (s : ZmqState) : ZmqState :=
  { s with buffer_limit := limit,
           messages := s.messages.drop (s.messages.length - limit) }

/-- The buffer-limit application of `apply_zmq_runtime` in
`src/app/update/config.rs`: store the clamped limit without trimming. -/
def setBufferLimitClamped (n : Nat) (s : ZmqState) : ZmqState :=
  { s with buffer_limit := natClamp n MIN_ZMQ_BUFFER_LIMIT MAX_ZMQ_BUFFER_LIMIT }

/-- The connect transition of the subscriber thread. -/
def markConnected (addr : String) (s : ZmqState) : ZmqState :=
  { s with connected := true, address := addr }

/-- `mark_disconnected`. -/
def mark_disconnected (s : ZmqState) : ZmqState :=
  { s with connected := false, address := "" }

/-- The mutations any thread performs on the shared `ZmqState`. -/
inductive ZmqStep : ZmqState → ZmqState → Prop where
  | push (d : ZmqMsgData) (s : ZmqState) : ZmqStep s (pushMessage d s)
  | setLimitTrim (n : Nat) (s : ZmqState) : ZmqStep s (setBufferLimitTrim n s)
  | setLimitClamped (n : Nat) (s : ZmqState) : ZmqStep s (setBufferLimitClamped n s)
  | connect (addr : String) (s : ZmqState) : ZmqStep s (markConnected addr s)
  | disconnect (s : ZmqState) : ZmqStep s (mark_disconnected s)

/-- A `ZmqState` reachable from the default state. -/
def ZmqReachable (s : ZmqState) : Prop :=
  Relation.ReflTransGen ZmqStep ZmqState.default s

/-- The default state with a given buffer limit, the starting point of the
fixed-limit push scenarios. -/
def zmqInit (limit : Nat) : ZmqState :=
  { ZmqState.default with buffer_limit := limit }

/-- Push a sequence of received notifications in order. -/
def pushAll (init : ZmqState) (ds : List ZmqMsgData) : ZmqState :=
  ds.foldl (fun s d => pushMessage d s) init

/-- The long-poll response of `/zmq/messages`. -/
structure ZmqMessagesResponse where
  connected : Bool
  address : String
  buffer_limit : Nat
  cursor : Nat
  truncated : Bool
  messages : List ZmqMessage
deriving DecidableEq

/-- `wait_ms` handling of the `/zmq/messages` route:
`unwrap_or(0).clamp(0, 30_000)` (the absent-parameter default is taken as
the argument here). -/
def clampWaitMs (w : Nat) : Nat := natClamp w 0 30000

/-- `zmq_messages_response` from `src/protocol.rs`. -/
def zmq_messages_response (s : ZmqState) (since : Nat) : ZmqMessagesResponse :=
  let msgs := s.messages.filter (fun m => decide (since < m.cursor))
  let truncated : Bool :=
    decide (0 < since) && !msgs.isEmpty &&
      (match s.messages.find? (fun m => decide (since < m.cursor)) with
       | some m => decide (satAdd1 since < m.cursor)
       | none => false)
  { connected := s.connected,
    address := s.address,
    buffer_limit := s.buffer_limit,
    cursor := match s.messages.getLast? with
      | some m => m.cursor
      | none => 0,
    truncated := truncated,
    messages := msgs }

/-! ## Refresh coordinator (src/app/update/dashboard.rs, zmq.rs, config.rs) -/

/-- `DashboardPartialSet` (the refresh classification). -/
inductive DashboardPartialSet where
  | MempoolOnly
  | ChainAndMempool
deriving DecidableEq

/-- `merge_pending_partial` from `src/app/update/zmq.rs` as a function of
the pending slot and the next classification: the stronger classification
(`ChainAndMempool`) dominates. -/
def merge_pending (pending : Option DashboardPartialSet) (next : DashboardPartialSet) :
    Option DashboardPartialSet :=
  some (match pending, next with
    | some .ChainAndMempool, _ => .ChainAndMempool
    | _, .ChainAndMempool => .ChainAndMempool
    | _, _ => .MempoolOnly)

/-- `DashboardPartialUpdate`. -/
inductive DashboardPartialUpdate where
  | Mempool (mempool : MempoolSummary)
  | ChainAndMempool (chain : ChainSummary) (mempool : MempoolSummary)

/-- In-place application of a `DashboardPartialUpdate` to an existing
snapshot. -/
def applyUpdate (u : DashboardPartialUpdate) (snap : DashboardSnapshot) : DashboardSnapshot :=
  match u with
  | .Mempool m => { snap with mempool := m }
  | .ChainAndMempool c m => { snap with chain := c, mempool := m }

/-- Modelled from the spec: `ZMQ_REFRESH_DEBOUNCE_MS` lives in
`src/app/constants.rs`, which is not present under `src/`; the spec gives
the debounce window as 800 ms. -/
def ZMQ_REFRESH_DEBOUNCE_MS : Nat := 800

/-- The dashboard slice of the app `State` (fields touched by
`handle_dashboard`; `pendingRefresh` is the source field holding the
pending classification, `last_refresh_at` an `Instant` in ms). -/
structure DashUiState where
  request_gen : Nat
  in_flight : Bool
  snapshot : Option DashboardSnapshot
  error : Option String
  selected_peer_id : Option Int
  pendingRefresh : Option DashboardPartialSet
  last_refresh_at : Option Nat

/-- The `iced::Task` returned by the dashboard handlers, reduced to its
observable effect. -/
inductive DashTask where
  | noTask
  | requestRefreshOf (p : DashboardPartialSet)
  | loadFull (rgen : Nat)

/-- `can_run_debounced_refresh` (`Instant::elapsed` is `now - t`). -/
def can_run_debounced_refresh (now : Nat) (st : DashUiState) : Bool :=
  match st.last_refresh_at with
  | none => true
  | some t => decide (ZMQ_REFRESH_DEBOUNCE_MS ≤ now - t)

/-- `schedule_pending_partial_if_ready`. -/
def schedule_pending_if_ready (now : Nat) (st : DashUiState) : DashUiState × DashTask :=
  match st.pendingRefresh with
  | some p =>
    if can_run_debounced_refresh now st then
      ({ st with pendingRefresh := none }, .requestRefreshOf p)
    else (st, .noTask)
  | none => (st, .noTask)

/-- `start_dashboard_refresh`: marks a refresh in flight, stamps the
refresh time, and spawns a full fetch tagged with the current request
generation. -/
def start_dashboard_refresh (now : Nat) (st : DashUiState) : DashUiState × DashTask :=
  ({ st with in_flight := true, last_refresh_at := some now }, .loadFull st.request_gen)

/-- The `Message::DashboardLoaded(rgen, result)` arm of
`handle_dashboard`: a stale generation tag only clears `in_flight`;
otherwise the snapshot or error is stored and a pending classification may
be scheduled. -/
def handleDashboardLoaded (now : Nat) (st : DashUiState) (rgen : Nat)
    (result : Except String DashboardSnapshot) : DashUiState × DashTask :=
  if rgen ≠ st.request_gen then ({ st with in_flight := false }, .noTask)
  else
    let st := { st with in_flight := false }
    let st :=
      match result with
      | .ok snapshot =>
        let selectedValid :=
          match st.selected_peer_id with
          | some id => snapshot.peers.any (fun peer => peer.id == id)
          | none => false
        let st := if !selectedValid then { st with selected_peer_id := none } else st
        { st with snapshot := some snapshot, error := none }
      | .error e => { st with error := some e }
    schedule_pending_if_ready now st

/-- The `Message::DashboardPartialLoaded(rgen, result)` arm of
`handle_dashboard`: a stale generation tag only clears `in_flight`;
otherwise the update is applied in place (or a full refresh starts when no
snapshot exists). -/
def handleDashboardPartialLoaded (now : Nat) (st : DashUiState) (rgen : Nat)
    (result : Except String DashboardPartialUpdate) : DashUiState × DashTask :=
  if rgen ≠ st.request_gen then ({ st with in_flight := false }, .noTask)
  else
    let st := { st with in_flight := false }
    match result with
    | .ok u =>
      match st.snapshot with
      | some snap =>
        schedule_pending_if_ready now
          { st with snapshot := some (applyUpdate u snap), error := none }
      | none => start_dashboard_refresh now st
    | .error e => schedule_pending_if_ready now { st with error := some e }

/-- The request-generation bump of `apply_runtime_config`
(`u64::wrapping_add(1)`). -/
def bumpGen (g : Nat) : Nat := (g + 1) % 2 ^ 64

/-! ## Theorems -/

/-! ### C9: merge law of pending refresh classifications -/

/-- Claim C9: merging pending refresh classifications is commutative and
keeps the stronger one: from every prior pending state (including none
pending), merging in Mempool-only and Chain-and-mempool in either order
yields Chain-and-mempool, and merging Mempool-only with Mempool-only
yields Mempool-only. -/
theorem merge_pending_strongest :
    (∀ p a b, merge_pending (merge_pending p a) b = merge_pending (merge_pending p b) a) ∧
    (∀ p, merge_pending (merge_pending p .MempoolOnly) .ChainAndMempool =
      some .ChainAndMempool) ∧
    (∀ p, merge_pending (merge_pending p .ChainAndMempool) .MempoolOnly =
      some .ChainAndMempool) ∧
    merge_pending (some .MempoolOnly) .MempoolOnly = some .MempoolOnly ∧
    merge_pending none .MempoolOnly = some .MempoolOnly := by
  refine ⟨?_, ?_, ?_, rfl, rfl⟩
  · intro p a b
    rcases p with _ | p <;> rcases a <;> rcases b <;> first | rfl | (rcases p <;> rfl)
  · intro p
    rcases p with _ | p <;> first | rfl | (rcases p <;> rfl)
  · intro p
    rcases p with _ | p <;> first | rfl | (rcases p <;> rfl)

/-! ### C10: malformed configuration update is a no-op -/

/-- Claim C10: when the request body fails to parse as JSON,
`update_config` leaves every field of the configuration unchanged and
reports `zmq_changed = false` and `insecure_blocked = false`. -/
theorem update_config_invalid_body_noop (allow : Bool) (cfg : RpcConfig) :
    update_config allow none cfg = (cfg, ⟨false, false⟩) := rfl

/-! ### C7: stale-generation discard -/

/-- Claim C7: a refresh result (full or partial) tagged with a generation
different from the current request generation is discarded on arrival: the
handler only clears the in-flight flag, leaving the stored snapshot and
error untouched and dispatching nothing; and advancing the generation
(wrapping bump) always changes it, so a result tagged before an advance is
stale after it. -/
theorem stale_generation_discard :
    (∀ g, g < 2 ^ 64 → bumpGen g ≠ g) ∧
    ∀ (now : Nat) (st : DashUiState) (rgen : Nat), rgen ≠ st.request_gen →
      (∀ result, handleDashboardLoaded now st rgen result =
        ({ st with in_flight := false }, .noTask)) ∧
      (∀ result, handleDashboardPartialLoaded now st rgen result =
        ({ st with in_flight := false }, .noTask)) ∧
      (∀ result, (handleDashboardLoaded now st rgen result).1.snapshot = st.snapshot ∧
        (handleDashboardLoaded now st rgen result).1.error = st.error) ∧
      (∀ result, (handleDashboardPartialLoaded now st rgen result).1.snapshot = st.snapshot ∧
        (handleDashboardPartialLoaded now st rgen result).1.error = st.error) := by
  constructor
  · intro g hg
    have h64 : (2 : Nat) ^ 64 = 18446744073709551616 := by norm_num
    simp only [bumpGen, h64] at *
    omega
  · intro now st rgen h
    have h1 : ∀ result, handleDashboardLoaded now st rgen result =
        ({ st with in_flight := false }, .noTask) := by
      intro result
      simp only [handleDashboardLoaded, if_pos h]
    have h2 : ∀ result, handleDashboardPartialLoaded now st rgen result =
        ({ st with in_flight := false }, .noTask) := by
      intro result
      simp only [handleDashboardPartialLoaded, if_pos h]
    refine ⟨h1, h2, fun result => ?_, fun result => ?_⟩
    · rw [h1 result]
      exact ⟨rfl, rfl⟩
    · rw [h2 result]
      exact ⟨rfl, rfl⟩

/-- Witness for C7 at a concrete stale-tagged result. -/
theorem stale_generation_discard_witness :
    bumpGen 4 ≠ 4 ∧
    handleDashboardLoaded 0 ⟨5, true, none, none, none, none, none⟩ 4 (.error "late") =
      ({ request_gen := 5, in_flight := false, snapshot := none, error := none,
         selected_peer_id := none, pendingRefresh := none, last_refresh_at := none }, .noTask) :=
  ⟨stale_generation_discard.1 4 (by norm_num),
   (stale_generation_discard.2 0 ⟨5, true, none, none, none, none, none⟩ 4 (by decide)).1 _⟩

/-! ### C6: host-safety violation during a configuration update -/

/-- Counterexample for C6 as stated: an update carrying an unsafe URL and
a user field is reported blocked, yet the user field of the configuration
is mutated — the update is not a full no-op. -/
theorem update_config_blocked_mutates_other_fields :
    (update_config false
      (some (.obj [("url", .str "http://8.8.8.8:8332"), ("user", .str "alice")]))
      RpcConfig.default).2.insecure_blocked = true ∧
    (update_config false
      (some (.obj [("url", .str "http://8.8.8.8:8332"), ("user", .str "alice")]))
      RpcConfig.default).1.user = "alice" ∧
    RpcConfig.default.user ≠ "alice" := by
  refine ⟨rfl, rfl, by decide⟩

/-- The non-URL steps of `update_config` never touch the URL field. -/
theorem update_config_rest_url (msg : JValue) (cfg : RpcConfig) :
    (update_config_rest msg cfg).1.url = cfg.url := by
  simp only [update_config_rest]
  rcases (msg.index "user").asStr with _ | u <;>
    rcases (msg.index "password").asStr with _ | pw <;>
    rcases (msg.index "wallet").asStr with _ | w <;>
    rcases hz : (msg.index "zmq_address").asStr with _ | z <;>
    rcases parse_usize (msg.index "zmq_buffer_limit") with _ | lim <;>
    simp only [] <;>
    split <;>
    rfl

/-- Claim C6 (amended): when the requested URL is unsafe and the insecure
override is unset, the update is reported blocked and the URL field keeps
its prior value; the other fields requested in the same update are still
applied. -/
theorem update_config_blocked_keeps_url (parsed : JValue) (cfg : RpcConfig) (url : String)
    (hurl : (parsed.index "url").asStr = some url)
    (hblocked : is_safe_rpc_host_config url = false) :
    (update_config false (some parsed) cfg).2.insecure_blocked = true ∧
    (update_config false (some parsed) cfg).1.url = cfg.url := by
  have hc : (is_safe_rpc_host_config url || false) = false := by simp [hblocked]
  simp only [update_config, hurl, hc, Bool.false_eq_true, if_false]
  exact ⟨trivial, update_config_rest_url parsed cfg⟩

/-- Witness for C6 (amended) at a concrete blocked update. -/
theorem update_config_blocked_keeps_url_witness :
    ((JValue.obj [("url", .str "http://8.8.8.8:8332"), ("user", .str "alice")]).index "url").asStr
        = some "http://8.8.8.8:8332" ∧
    is_safe_rpc_host_config "http://8.8.8.8:8332" = false ∧
    (update_config false
      (some (.obj [("url", .str "http://8.8.8.8:8332"), ("user", .str "alice")]))
      RpcConfig.default).2.insecure_blocked = true ∧
    (update_config false
      (some (.obj [("url", .str "http://8.8.8.8:8332"), ("user", .str "alice")]))
      RpcConfig.default).1.url = RpcConfig.default.url := by
  refine ⟨rfl, rfl, ?_⟩
  exact update_config_blocked_keeps_url _ _ _ rfl rfl

/-! ### C2: batch shape -/

/-- Counterexample for C2 as stated: a batch of one call succeeds with two
results when the node replies with a two-element array — the response
cardinality is not checked against the request cardinality. -/
theorem batch_cardinality_unchecked :
    batch [⟨.num (.posInt 1), "uptime", .arr []⟩]
      (fun _ => .ok (.arr [.obj [("result", .null)], .obj [("result", .null)]])) =
      .ok [.null, .null] ∧
    [(⟨.num (.posInt 1), "uptime", .arr []⟩ : RpcCall)].length = 1 := ⟨rfl, rfl⟩

/-- `collectResults` succeeds with one unwrapped value per element, in
order. -/
theorem collectResults_ok (items out : List JValue)
    (h : collectResults items = .ok out) :
    out.length = items.length ∧
    ∀ i, i < items.length →
      extract_result (items.getD i .null) = .ok (out.getD i .null) := by
  induction items generalizing out with
  | nil =>
    simp only [collectResults] at h
    cases h
    exact ⟨rfl, fun i hi => absurd hi (by simp)⟩
  | cons x xs ih =>
    simp only [collectResults] at h
    rcases hx : extract_result x with e | r
    · rw [hx] at h; cases h
    · rw [hx] at h
      rcases hxs : collectResults xs with e | rs
      · rw [hxs] at h; cases h
      · rw [hxs] at h
        cases h
        obtain ⟨hlen, hidx⟩ := ih rs hxs
        refine ⟨by simp [hlen], ?_⟩
        intro i hi
        cases i with
        | zero => simpa using hx
        | succ j =>
          simp only [List.getD_cons_succ]
          exact hidx j (by simpa using hi)

/-- Claim C2 (amended): an empty batch returns an empty result without
posting; a nonempty batch posts the array of envelopes carrying the calls'
ids, methods and params in order; a successful return requires the node's
reply to be a JSON array, whose elements are unwrapped independently in
order — the result count equals the reply array's cardinality (which is
not checked against the request's), and the i-th result is the unwrapping
of the i-th reply element. -/
theorem batch_unwraps_in_order :
    (∀ post, batch [] post = .ok []) ∧
    (∀ call, (batchEnvelope call).index "jsonrpc" = .str "2.0" ∧
      (batchEnvelope call).index "id" = call.id ∧
      (batchEnvelope call).index "method" = .str call.method ∧
      (batchEnvelope call).index "params" = call.params) ∧
    (∀ calls, (batchPayload calls).asArray = some (calls.map batchEnvelope)) ∧
    (∀ calls post out, batch calls post = .ok out →
      (calls = [] ∧ out = []) ∨
      (∃ items, post (batchPayload calls) = .ok (.arr items) ∧
        collectResults items = .ok out ∧ out.length = items.length ∧
        ∀ i, i < items.length →
          extract_result (items.getD i .null) = .ok (out.getD i .null))) := by
  refine ⟨fun post => rfl, fun call => ⟨rfl, rfl, rfl, rfl⟩, fun calls => rfl, ?_⟩
  intro calls post out h
  cases calls with
  | nil =>
    simp only [batch, List.isEmpty_nil, if_true] at h
    cases h
    exact .inl ⟨rfl, rfl⟩
  | cons c cs =>
    refine .inr ?_
    simp only [batch, List.isEmpty_cons, if_false] at h
    rcases hp : post (batchPayload (c :: cs)) with e | response
    · rw [hp] at h; cases h
    · rw [hp] at h
      rcases response with _ | _ | _ | _ | items | _ <;> simp only [JValue.asArray] at h
      · cases h
      · cases h
      · cases h
      · cases h
      · obtain ⟨hlen, hidx⟩ := collectResults_ok items out h
        exact ⟨items, rfl, h, hlen, hidx⟩
      · cases h

/-- Witness for C2 (amended) at a concrete successful batch. -/
theorem batch_unwraps_in_order_witness :
    batch [⟨.num (.posInt 7), "uptime", .arr []⟩]
        (fun _ => .ok (.arr [.obj [("result", .num (.posInt 123))]])) =
      .ok [.num (.posInt 123)] ∧
    ∃ items,
      (fun (_ : JValue) => Except.ok (ε := RpcError) (JValue.arr [.obj [("result", .num (.posInt 123))]]))
          (batchPayload [⟨.num (.posInt 7), "uptime", .arr []⟩]) = .ok (.arr items) ∧
      collectResults items = .ok [.num (.posInt 123)] ∧
      ([JValue.num (.posInt 123)]).length = items.length ∧
      ∀ i, i < items.length →
        extract_result (items.getD i .null) = .ok (([JValue.num (.posInt 123)]).getD i .null) := by
  refine ⟨rfl, ?_⟩
  have h := (batch_unwraps_in_order.2.2.2
    [⟨.num (.posInt 7), "uptime", .arr []⟩]
    (fun _ => .ok (.arr [.obj [("result", .num (.posInt 123))]]))
    [.num (.posInt 123)] rfl)
  rcases h with ⟨hnil, _⟩ | h
  · cases hnil
  · exact h

/-! ### C5: long-poll read -/

/-- The head of a filtered list is the first satisfying element. -/
theorem head?_filter_eq_find? {α : Type} (p : α → Bool) (l : List α) :
    (l.filter p).head? = l.find? p := by
  induction l with
  | nil => rfl
  | cons x xs ih =>
    by_cases h : p x <;> simp [List.filter_cons, List.find?_cons, h, ih]

set_option maxRecDepth 40000 in
/-- Counterexample for C5 as stated: after 51 pushes at limit 50 the
oldest buffered cursor is 2, so a read with `since = 0` skips over the
evicted cursor 1, yet the truncated flag is not set (the source requires
`since > 0`). -/
theorem zmq_truncated_not_flagged_at_zero :
    (zmq_messages_response
        (pushAll (zmqInit 50) (List.replicate 51 ⟨"hashtx", "", 9, 0, 0, none⟩)) 0).truncated
      = false ∧
    ((zmq_messages_response
        (pushAll (zmqInit 50) (List.replicate 51 ⟨"hashtx", "", 9, 0, 0, none⟩)) 0).messages.head?).map
        ZmqMessage.cursor = some 2 ∧
    (0 : Nat) + 1 ≠ 2 := by
  refine ⟨by decide, by decide, by decide⟩

/-- Claim C5 (amended): `wait_ms` is clamped to `[0, 30000]`; the response
returns exactly the buffered messages with cursor greater than `since`, in
buffer order, together with the latest buffered cursor (0 when the buffer
is empty); and — for cursors in the u64 range — the truncated flag is set
iff `since > 0` and the oldest returned message's cursor is not exactly
`since + 1`. -/
theorem zmq_messages_response_spec :
    (∀ w, clampWaitMs w = min w 30000) ∧
    ∀ (s : ZmqState) (since : Nat),
      (zmq_messages_response s since).messages =
        s.messages.filter (fun m => decide (since < m.cursor)) ∧
      (zmq_messages_response s since).cursor =
        ((s.messages.getLast?.map ZmqMessage.cursor).getD 0) ∧
      (since ≤ U64MAX → (∀ m ∈ s.messages, m.cursor ≤ U64MAX) →
        ((zmq_messages_response s since).truncated = true ↔
          0 < since ∧ ∃ m,
            (zmq_messages_response s since).messages.head? = some m ∧
            m.cursor ≠ since + 1)) := by
  have hU : U64MAX = 18446744073709551615 := by norm_num [U64MAX]
  constructor
  · intro w
    simp only [clampWaitMs, natClamp]
    split
    · omega
    · split <;> omega
  · intro s since
    refine ⟨rfl, ?_, ?_⟩
    · simp only [zmq_messages_response]
      rcases s.messages.getLast? with _ | m <;> rfl
    · intro hsince hm
      have hfind := head?_filter_eq_find? (fun m => decide (since < m.cursor)) s.messages
      simp only [zmq_messages_response]
      rcases hh : List.find? (fun m => decide (since < m.cursor)) s.messages with _ | m
      · have hempty : s.messages.filter (fun m => decide (since < m.cursor)) = [] := by
          rw [← List.head?_eq_none_iff, hfind, hh]
        simp [hh, hempty]
      · have hmem : m ∈ s.messages := List.mem_of_find?_eq_some hh
        have hgt : since < m.cursor := by simpa using List.find?_some hh
        have hle := hm m hmem
        have hhead : (s.messages.filter (fun m => decide (since < m.cursor))).head? = some m := by
          rw [hfind, hh]
        have hemp : (s.messages.filter (fun m => decide (since < m.cursor))).isEmpty = false := by
          rcases hflt : s.messages.filter (fun m => decide (since < m.cursor)) with _ | _
          · rw [hflt] at hhead; cases hhead
          · rw [hflt]; rfl
        rw [hU] at hsince hle
        simp only [hh, hhead, hemp, Bool.and_eq_true, Bool.not_eq_true', decide_eq_true_eq,
          Option.some.injEq, satAdd1, hU]
        constructor
        · rintro ⟨⟨hpos, -⟩, htr⟩
          exact ⟨hpos, m, rfl, by omega⟩
        · rintro ⟨hpos, m', hm', hne'⟩
          subst hm'
          exact ⟨⟨hpos, trivial⟩, by omega⟩

/-- Witness for C5 (amended) at a concrete buffer with a gap. -/
theorem zmq_messages_response_spec_witness :
    (1 : Nat) ≤ U64MAX ∧
    (∀ m ∈ [(⟨3, "hashtx", "", 9, 0, 0, none⟩ : ZmqMessage)], m.cursor ≤ U64MAX) ∧
    ((zmq_messages_response ⟨false, "", 50, 4, [⟨3, "hashtx", "", 9, 0, 0, none⟩]⟩ 1).truncated = true ↔
      0 < 1 ∧ ∃ m,
        (zmq_messages_response ⟨false, "", 50, 4, [⟨3, "hashtx", "", 9, 0, 0, none⟩]⟩ 1).messages.head?
          = some m ∧ m.cursor ≠ 1 + 1) := by
  refine ⟨by norm_num [U64MAX], ?_, ?_⟩
  · intro m hm
    simp only [List.mem_singleton] at hm
    subst hm
    norm_num [U64MAX]
  · exact ((zmq_messages_response_spec.2 ⟨false, "", 50, 4, [⟨3, "hashtx", "", 9, 0, 0, none⟩]⟩ 1).2.2
      (by norm_num [U64MAX])
      (by intro m hm; simp only [List.mem_singleton] at hm; subst hm; norm_num [U64MAX]))

/-! ### ZMQ buffer characterization (shared by C4 and C8) -/

/-- A clamp inside the clamping range is the identity. -/
theorem natClamp_eq_self {x lo hi : Nat} (h1 : lo ≤ x) (h2 : x ≤ hi) :
    natClamp x lo hi = x := by
  simp only [natClamp]
  split
  · omega
  · split
    · omega
    · rfl

/-- A zipWith ignoring its second list is a map, when the second list is
long enough. -/
theorem zipWith_fst_map {α β γ : Type} (g : α → γ) (xs : List α) (ys : List β)
    (h : xs.length ≤ ys.length) :
    List.zipWith (fun a _ => g a) xs ys = xs.map g := by
  induction xs generalizing ys with
  | nil => rfl
  | cons x xs ih =>
    cases ys with
    | nil => simp at h
    | cons y ys =>
      simp only [List.zipWith_cons_cons, List.map_cons, List.cons.injEq, true_and]
      exact ih ys (by simpa using h)

/-- Pushes leave the stored buffer limit unchanged. -/
theorem pushAll_buffer_limit (init : ZmqState) (ds : List ZmqMsgData) :
    (pushAll init ds).buffer_limit = init.buffer_limit := by
  induction ds using List.reverseRecOn with
  | nil => rfl
  | append_singleton ds d ih =>
    simp only [pushAll, List.foldl_append] at *
    exact ih

/-- The cursor counter after a sequence of pushes: a saturating sum. -/
theorem pushAll_next_cursor (init : ZmqState) (ds : List ZmqMsgData)
    (h : init.next_cursor ≤ U64MAX) :
    (pushAll init ds).next_cursor = min (init.next_cursor + ds.length) U64MAX := by
  induction ds using List.reverseRecOn with
  | nil =>
    simp only [pushAll, List.foldl_nil, List.length_nil, Nat.add_zero]
    omega
  | append_singleton ds d ih =>
    simp only [pushAll, List.foldl_append, List.foldl_cons, List.foldl_nil] at *
    show satAdd1 (List.foldl (fun s d => pushMessage d s) init ds).next_cursor =
      min (init.next_cursor + (ds ++ [d]).length) U64MAX
    rw [ih]
    simp only [satAdd1, List.length_append, List.length_cons, List.length_nil]
    omega

/-- A nonempty `range'` as a cons. -/
theorem range'_cons_of_pos (s n : Nat) (h : 0 < n) :
    List.range' s n = s :: List.range' (s + 1) (n - 1) := by
  obtain ⟨m, rfl⟩ : ∃ m, n = m + 1 := ⟨n - 1, by omega⟩
  simp [List.range'_succ]

/-- A nonempty `range'` with its last element split off. -/
theorem range'_concat_of_pos (s n : Nat) (h : 0 < n) :
    List.range' s n = List.range' s (n - 1) ++ [s + n - 1] := by
  obtain ⟨m, rfl⟩ : ∃ m, n = m + 1 := ⟨n - 1, by omega⟩
  rw [List.range'_concat]
  congr 2
  omega

/-- The buffer contents after pushing `ds` notifications from an empty
buffer at a fixed in-range limit: exactly the most recent
`min ds.length limit` notifications, paired in order with the cursors
they were assigned (the saturating counter values). -/
theorem pushAll_messages (limit : Nat) (hmin : MIN_ZMQ_BUFFER_LIMIT ≤ limit)
    (hmax : limit ≤ MAX_ZMQ_BUFFER_LIMIT) (ds : List ZmqMsgData) :
    (pushAll (zmqInit limit) ds).messages =
      List.zipWith (fun k d => mkMsg d (min k U64MAX))
        (List.range' (ds.length + 1 - min ds.length limit) (min ds.length limit))
        (ds.drop (ds.length - min ds.length limit)) := by
  have h50 : MIN_ZMQ_BUFFER_LIMIT = 50 := rfl
  have hUb : 1 ≤ U64MAX := by norm_num [U64MAX]
  rw [h50] at hmin
  induction ds using List.reverseRecOn with
  | nil =>
    simp [pushAll, zmqInit, ZmqState.default]
  | append_singleton ds d ih =>
    have hnext : (pushAll (zmqInit limit) ds).next_cursor = min (ds.length + 1) U64MAX := by
      have h1 : (zmqInit limit).next_cursor = 1 := rfl
      rw [pushAll_next_cursor (zmqInit limit) ds (by rw [h1]; exact hUb), h1]
      omega
    have hbuf : (pushAll (zmqInit limit) ds).buffer_limit = limit :=
      pushAll_buffer_limit (zmqInit limit) ds
    have hlen : (pushAll (zmqInit limit) ds).messages.length = min ds.length limit := by
      rw [ih]
      simp only [List.length_zipWith, List.length_range', List.length_drop]
      omega
    have hstep : pushAll (zmqInit limit) (ds ++ [d]) =
        pushMessage d (pushAll (zmqInit limit) ds) := by
      simp only [pushAll, List.foldl_append, List.foldl_cons, List.foldl_nil]
    rw [hstep]
    simp only [pushMessage, hbuf]
    rw [natClamp_eq_self (by rw [h50]; exact hmin) hmax, hlen, hnext]
    simp only [List.length_append, List.length_cons, List.length_nil]
    by_cases hcase : limit ≤ ds.length
    · have hm1 : min ds.length limit = limit := by omega
      have hm2 : min (ds.length + (0 + 1)) limit = limit := by omega
      rw [hm2, if_pos (by rw [hm1] : limit ≤ min ds.length limit), ih, hm1]
      have hdlen : (ds.drop (ds.length - limit)).length = limit := by
        simp only [List.length_drop]
        omega
      rcases hdrop : ds.drop (ds.length - limit) with _ | ⟨y, ys⟩
      · rw [hdrop] at hdlen
        simp only [List.length_nil] at hdlen
        omega
      have hys : ys.length = limit - 1 := by
        rw [hdrop] at hdlen
        simp only [List.length_cons] at hdlen
        omega
      have hhead : List.range' (ds.length + 1 - limit) limit =
          (ds.length + 1 - limit) :: List.range' (ds.length + 2 - limit) (limit - 1) := by
        rw [range'_cons_of_pos _ _ (by omega)]
        congr 2 <;> omega
      have htgt_range : List.range' (ds.length + (0 + 1) + 1 - limit) limit =
          List.range' (ds.length + 2 - limit) (limit - 1) ++ [ds.length + 1] := by
        rw [range'_concat_of_pos _ _ (by omega)]
        congr 2 <;> omega
      have htgt_drop : List.drop (ds.length + (0 + 1) - limit) (ds ++ [d]) = ys ++ [d] := by
        rw [List.drop_append_of_le_length (by omega)]
        have h1 : List.drop (ds.length + (0 + 1) - limit) ds =
            List.drop 1 (List.drop (ds.length - limit) ds) := by
          rw [List.drop_drop]
          congr 1
          omega
        rw [h1, hdrop]
        rfl
      rw [hhead, htgt_range, htgt_drop]
      simp only [List.zipWith_cons_cons, List.tail_cons]
      rw [List.zipWith_append _ _ _ _ _ (by rw [List.length_range']; omega)]
      simp only [List.zipWith_cons_cons, List.zipWith_nil_right]
    · have hm1 : min ds.length limit = ds.length := by omega
      have hm2 : min (ds.length + (0 + 1)) limit = ds.length + 1 := by omega
      rw [hm2, if_neg (by rw [hm1]; omega), ih, hm1]
      simp only [Nat.sub_self, List.drop_zero, Nat.add_sub_cancel]
      have hstart : ds.length + (0 + 1) + 1 - (ds.length + 1) = 1 := by omega
      have hs1 : ds.length + 1 - ds.length = 1 := by omega
      rw [hstart, hs1]
      have htgt_range : List.range' 1 (ds.length + 1) =
          List.range' 1 ds.length ++ [ds.length + 1] := by
        rw [List.range'_concat]
        congr 2
        omega
      rw [htgt_range]
      rw [List.zipWith_append _ _ _ _ _ (by rw [List.length_range'])]
      simp only [List.zipWith_cons_cons, List.zipWith_nil_right]

/-- The cursors held in the buffer after a push sequence: the saturating
counter values of the retained pushes. -/
theorem map_cursor_zipWith (ks : List Nat) (ds : List ZmqMsgData)
    (h : ks.length ≤ ds.length) :
    (List.zipWith (fun k d => mkMsg d (min k U64MAX)) ks ds).map ZmqMessage.cursor =
      ks.map (fun k => min k U64MAX) := by
  induction ks generalizing ds with
  | nil => rfl
  | cons k ks ih =>
    cases ds with
    | nil => simp at h
    | cons d ds =>
      simp only [List.zipWith_cons_cons, List.map_cons, List.cons.injEq]
      exact ⟨rfl, ih ds (by simpa using h)⟩

/-- The buffered cursor list after pushing `ds` notifications from an
empty buffer at a fixed in-range limit. -/
theorem pushAll_cursors (limit : Nat) (hmin : MIN_ZMQ_BUFFER_LIMIT ≤ limit)
    (hmax : limit ≤ MAX_ZMQ_BUFFER_LIMIT) (ds : List ZmqMsgData) :
    (pushAll (zmqInit limit) ds).messages.map ZmqMessage.cursor =
      (List.range' (ds.length + 1 - min ds.length limit) (min ds.length limit)).map
        (fun k => min k U64MAX) := by
  rw [pushAll_messages limit hmin hmax ds]
  exact map_cursor_zipWith _ _ (by simp only [List.length_range', List.length_drop]; omega)

/-! ### C4: bounded FIFO buffer -/

set_option maxRecDepth 40000 in
/-- Counterexample for C4 as stated: the cursor counter saturates at
`2^64 - 1`, so after `2^64` pushes at limit 50 the retained cursors are
not strictly increasing (the last two both read `2^64 - 1`). -/
theorem zmq_cursors_repeat_after_saturation :
    50 < (List.replicate (U64MAX + 1) (⟨"hashtx", "", 9, 0, 0, none⟩ : ZmqMsgData)).length ∧
    ¬ ((pushAll (zmqInit 50)
          (List.replicate (U64MAX + 1) (⟨"hashtx", "", 9, 0, 0, none⟩ : ZmqMsgData))).messages.map
        ZmqMessage.cursor).Pairwise (· < ·) := by
  constructor
  · rw [List.length_replicate]
    norm_num [U64MAX]
  · rw [pushAll_cursors 50 (by norm_num [MIN_ZMQ_BUFFER_LIMIT])
      (by norm_num [MAX_ZMQ_BUFFER_LIMIT])]
    rw [List.length_replicate]
    rw [show min (U64MAX + 1) 50 = 50 by norm_num [U64MAX]]
    decide

/-- Claim C4 (amended): at a fixed in-range buffer limit, the queue length
never exceeds the limit (it is the minimum of the push count and the
limit, the oldest entry being evicted on each push at capacity); after
`M > limit` pushes the queue holds exactly the most recent `limit`
notifications in order; and as long as at most `2^64 - 1` messages have
been pushed (the cursor counter not saturated) the retained cursors are
exactly `M - limit + 1 .. M`, strictly increasing. -/
theorem zmq_buffer_bounded_fifo (limit : Nat) (hmin : MIN_ZMQ_BUFFER_LIMIT ≤ limit)
    (hmax : limit ≤ MAX_ZMQ_BUFFER_LIMIT) :
    (∀ es : List ZmqMsgData,
      (pushAll (zmqInit limit) es).messages.length = min es.length limit) ∧
    (∀ ds : List ZmqMsgData, limit < ds.length →
      (pushAll (zmqInit limit) ds).messages.length = limit ∧
      (pushAll (zmqInit limit) ds).messages =
        List.zipWith (fun k d => mkMsg d (min k U64MAX))
          (List.range' (ds.length + 1 - limit) limit) (ds.drop (ds.length - limit)) ∧
      (ds.length ≤ U64MAX →
        (pushAll (zmqInit limit) ds).messages.map ZmqMessage.cursor =
          List.range' (ds.length + 1 - limit) limit ∧
        ((pushAll (zmqInit limit) ds).messages.map ZmqMessage.cursor).Pairwise (· < ·))) := by
  have hlen : ∀ es : List ZmqMsgData,
      (pushAll (zmqInit limit) es).messages.length = min es.length limit := by
    intro es
    rw [pushAll_messages limit hmin hmax es]
    simp only [List.length_zipWith, List.length_range', List.length_drop]
    omega
  refine ⟨hlen, ?_⟩
  intro ds hM
  have hminc : min ds.length limit = limit := by omega
  refine ⟨by rw [hlen ds, hminc], ?_, ?_⟩
  · have h := pushAll_messages limit hmin hmax ds
    rw [hminc] at h
    exact h
  · intro hsat
    have hcur := pushAll_cursors limit hmin hmax ds
    rw [hminc] at hcur
    have hrange : (List.range' (ds.length + 1 - limit) limit).map (fun k => min k U64MAX) =
        List.range' (ds.length + 1 - limit) limit := by
      have hid : ∀ k ∈ List.range' (ds.length + 1 - limit) limit, min k U64MAX = k := by
        intro k hk
        rw [List.mem_range'_1] at hk
        omega
      rw [List.map_congr_left hid]
      exact List.map_id _
    rw [hcur, hrange]
    exact ⟨rfl, List.pairwise_lt_range' _ _⟩

/-- Witness for C4 (amended) at limit 50 with 60 pushes. -/
theorem zmq_buffer_bounded_fifo_witness :
    (pushAll (zmqInit 50)
        (List.replicate 60 (⟨"hashtx", "", 9, 0, 0, none⟩ : ZmqMsgData))).messages.length = 50 ∧
    (pushAll (zmqInit 50)
        (List.replicate 60 (⟨"hashtx", "", 9, 0, 0, none⟩ : ZmqMsgData))).messages.map
      ZmqMessage.cursor = List.range' 11 50 := by
  have h := (zmq_buffer_bounded_fifo 50 (by norm_num [MIN_ZMQ_BUFFER_LIMIT])
    (by norm_num [MAX_ZMQ_BUFFER_LIMIT])).2
    (List.replicate 60 ⟨"hashtx", "", 9, 0, 0, none⟩)
    (by rw [List.length_replicate]; omega)
  obtain ⟨h1, -, h3⟩ := h
  have h4 := h3 (by rw [List.length_replicate]; norm_num [U64MAX])
  rw [List.length_replicate] at h4
  norm_num at h4
  exact ⟨h1, h4.1⟩

/-! ### C8: cursor monotonicity -/

/-- A push sequence only moves through reachable states. -/
theorem pushAll_reachable (init : ZmqState) (ds : List ZmqMsgData)
    (h : ZmqReachable init) : ZmqReachable (pushAll init ds) := by
  induction ds using List.reverseRecOn with
  | nil => exact h
  | append_singleton ds d ih =>
    have hstep : pushAll init (ds ++ [d]) = pushMessage d (pushAll init ds) := by
      simp only [pushAll, List.foldl_append, List.foldl_cons, List.foldl_nil]
    rw [hstep]
    exact Relation.ReflTransGen.tail ih (ZmqStep.push d _)

/-- The cursor invariant of every reachable buffer state: the counter is a
u64, every buffered cursor is at most the counter, and strictly below it
while the counter has not saturated. -/
theorem zmq_reachable_cursor_invariant (s : ZmqState) (h : ZmqReachable s) :
    s.next_cursor ≤ U64MAX ∧
    ∀ m ∈ s.messages, m.cursor ≤ s.next_cursor ∧
      (s.next_cursor < U64MAX → m.cursor < s.next_cursor) := by
  have hUb : 1 ≤ U64MAX := by norm_num [U64MAX]
  induction h with
  | refl =>
    refine ⟨hUb, ?_⟩
    intro m hm
    cases hm
  | tail hsteps hstep ih =>
    rename_i b c
    obtain ⟨ihn, ihm⟩ := ih
    cases hstep with
    | push d =>
      refine ⟨by simp only [pushMessage, satAdd1]; omega, ?_⟩
      intro m hm
      simp only [pushMessage, List.mem_append, List.mem_singleton] at hm
      simp only [pushMessage, satAdd1]
      rcases hm with hm | rfl
      · have hmem : m ∈ b.messages := by
          split at hm
          · exact List.tail_subset _ hm
          · exact hm
        obtain ⟨h1, h2⟩ := ihm m hmem
        refine ⟨by omega, ?_⟩
        intro hlt
        have hb : b.next_cursor < U64MAX := by omega
        have := h2 hb
        omega
      · refine ⟨by simp only [mkMsg]; omega, fun hlt => by simp only [mkMsg]; omega⟩
    | setLimitTrim n =>
      refine ⟨ihn, ?_⟩
      intro m hm
      simp only [setBufferLimitTrim] at hm ⊢
      exact ihm m (List.drop_subset _ _ hm)
    | setLimitClamped n =>
      refine ⟨ihn, fun m hm => ihm m hm⟩
    | connect addr =>
      refine ⟨ihn, fun m hm => ihm m hm⟩
    | disconnect =>
      refine ⟨ihn, fun m hm => ihm m hm⟩

/-- Claim C8 (amended): event cursors start at 1; in every reachable
buffer state every buffered cursor is at most the next-cursor counter, and
strictly below it while the counter has not saturated at `2^64 - 1`; and
along any push sequence, pushes up to the `2^64 - 1`-st are assigned
strictly increasing cursors (the cursor of the i-th push is below that of
the j-th for `i < j ≤ 2^64 - 1`). -/
theorem zmq_cursor_monotone :
    ZmqState.default.next_cursor = 1 ∧
    (∀ s, ZmqReachable s →
      s.next_cursor ≤ U64MAX ∧
      ∀ m ∈ s.messages, m.cursor ≤ s.next_cursor ∧
        (s.next_cursor < U64MAX → m.cursor < s.next_cursor)) ∧
    (∀ (ds : List ZmqMsgData) (i j : Nat), 1 ≤ i → i < j → j ≤ ds.length → j ≤ U64MAX →
      (pushAll ZmqState.default (ds.take (i - 1))).next_cursor <
      (pushAll ZmqState.default (ds.take (j - 1))).next_cursor) := by
  have hUb : 1 ≤ U64MAX := by norm_num [U64MAX]
  have hd1 : ZmqState.default.next_cursor = 1 := rfl
  refine ⟨rfl, fun s h => zmq_reachable_cursor_invariant s h, ?_⟩
  intro ds i j hi hij hj hjU
  have hk : ∀ k, k ≤ ds.length →
      (pushAll ZmqState.default (ds.take k)).next_cursor = min (1 + k) U64MAX := by
    intro k hk
    rw [pushAll_next_cursor ZmqState.default (ds.take k) (by rw [hd1]; exact hUb), hd1,
      List.length_take]
    congr 1
    omega
  rw [hk (i - 1) (by omega), hk (j - 1) (by omega)]
  omega

/-- Witness for C8 (amended): the invariant at the initial state, and
strict cursor growth between the first and second push of a concrete
sequence. -/
theorem zmq_cursor_monotone_witness :
    (ZmqState.default.next_cursor ≤ U64MAX ∧
      ∀ m ∈ ZmqState.default.messages, m.cursor ≤ ZmqState.default.next_cursor ∧
        (ZmqState.default.next_cursor < U64MAX → m.cursor < ZmqState.default.next_cursor)) ∧
    (pushAll ZmqState.default
        ((List.replicate 3 (⟨"hashtx", "", 9, 0, 0, none⟩ : ZmqMsgData)).take (1 - 1))).next_cursor <
    (pushAll ZmqState.default
        ((List.replicate 3 (⟨"hashtx", "", 9, 0, 0, none⟩ : ZmqMsgData)).take (2 - 1))).next_cursor := by
  refine ⟨zmq_cursor_monotone.2.1 ZmqState.default Relation.ReflTransGen.refl, ?_⟩
  exact zmq_cursor_monotone.2.2 (List.replicate 3 ⟨"hashtx", "", 9, 0, 0, none⟩) 1 2
    (by omega) (by omega) (by rw [List.length_replicate]; omega) (by norm_num [U64MAX])

/-- Counterexample for C8 as stated: after `2^64 - 1` pushes the buffer is
in a reachable state whose newest buffered cursor equals the next-cursor
counter (both saturated at `2^64 - 1`) — the counter no longer exceeds
every buffered cursor, and the cursor value `2^64 - 1` is reassigned by
every further push. -/
theorem zmq_cursor_reused_at_saturation :
    ZmqReachable (pushAll ZmqState.default
      (List.replicate U64MAX (⟨"hashtx", "", 9, 0, 0, none⟩ : ZmqMsgData))) ∧
    ∃ m ∈ (pushAll ZmqState.default
        (List.replicate U64MAX (⟨"hashtx", "", 9, 0, 0, none⟩ : ZmqMsgData))).messages,
      ¬ m.cursor < (pushAll ZmqState.default
        (List.replicate U64MAX (⟨"hashtx", "", 9, 0, 0, none⟩ : ZmqMsgData))).next_cursor := by
  have hdef : ZmqState.default = zmqInit 5000 := rfl
  have hnext : (pushAll ZmqState.default
      (List.replicate U64MAX (⟨"hashtx", "", 9, 0, 0, none⟩ : ZmqMsgData))).next_cursor = U64MAX := by
    rw [pushAll_next_cursor ZmqState.default _ (by norm_num [ZmqState.default, U64MAX])]
    rw [List.length_replicate]
    have : ZmqState.default.next_cursor = 1 := rfl
    rw [this]
    omega
  refine ⟨pushAll_reachable _ _ Relation.ReflTransGen.refl, ?_⟩
  have hcur : (pushAll ZmqState.default
      (List.replicate U64MAX (⟨"hashtx", "", 9, 0, 0, none⟩ : ZmqMsgData))).messages.map
        ZmqMessage.cursor =
      (List.range' (U64MAX + 1 - min U64MAX 5000) (min U64MAX 5000)).map (fun k => min k U64MAX) := by
    rw [hdef, pushAll_cursors 5000 (by norm_num [MIN_ZMQ_BUFFER_LIMIT])
      (by norm_num [MAX_ZMQ_BUFFER_LIMIT]), List.length_replicate]
  have hmem : U64MAX ∈ (pushAll ZmqState.default
      (List.replicate U64MAX (⟨"hashtx", "", 9, 0, 0, none⟩ : ZmqMsgData))).messages.map
        ZmqMessage.cursor := by
    rw [hcur]
    rw [List.mem_map]
    refine ⟨U64MAX, ?_, by omega⟩
    rw [List.mem_range'_1]
    norm_num [U64MAX]
  rw [List.mem_map] at hmem
  obtain ⟨m, hm, hmc⟩ := hmem
  exact ⟨m, hm, by rw [hnext, hmc]; omega⟩

/-! ### C3: all-or-nothing snapshot parsing -/

/-- A `fieldE` failure is always an `InvalidResponse`. -/
theorem fieldE_error {α : Type} {obj : List (String × JValue)} {key : String}
    {extract : JValue → Option α} {label : String} {e : RpcError}
    (h : fieldE obj key extract label = .error e) : ∃ msg, e = .InvalidResponse msg := by
  unfold fieldE at h
  rcases hx : (jlookup obj key).bind extract with _ | v <;> rw [hx] at h
  · exact ⟨_, ((Except.error.injEq _ _).mp h).symm⟩
  · cases h

/-- A `parse_chain` failure is always an `InvalidResponse`. -/
theorem parse_chain_error {v : JValue} {e : RpcError}
    (h : parse_chain v = .error e) : ∃ msg, e = .InvalidResponse msg := by
  unfold parse_chain at h
  split at h
  · exact ⟨_, ((Except.error.injEq _ _).mp h).symm⟩
  · rename_i o ho
    rcases h1 : stringE o "chain" with e1 | c1 <;> rw [h1] at h
    · cases h; exact fieldE_error h1
    · rcases h2 : fieldE o "blocks" JValue.asU64 "u64" with e2 | c2 <;> rw [h2] at h
      · cases h; exact fieldE_error h2
      · rcases h3 : fieldE o "headers" JValue.asU64 "u64" with e3 | c3 <;> rw [h3] at h
        · cases h; exact fieldE_error h3
        · rcases h4 : fieldE o "verificationprogress" JValue.asF64 "f64" with e4 | c4 <;>
            rw [h4] at h
          · cases h; exact fieldE_error h4
          · cases h

/-- A `parse_mempool` failure is always an `InvalidResponse`. -/
theorem parse_mempool_error {v : JValue} {e : RpcError}
    (h : parse_mempool v = .error e) : ∃ msg, e = .InvalidResponse msg := by
  unfold parse_mempool at h
  split at h
  · exact ⟨_, ((Except.error.injEq _ _).mp h).symm⟩
  · rename_i o ho
    rcases h1 : fieldE o "size" JValue.asU64 "u64" with e1 | c1 <;> rw [h1] at h
    · cases h; exact fieldE_error h1
    · rcases h2 : fieldE o "bytes" JValue.asU64 "u64" with e2 | c2 <;> rw [h2] at h
      · cases h; exact fieldE_error h2
      · rcases h3 : fieldE o "usage" JValue.asU64 "u64" with e3 | c3 <;> rw [h3] at h
        · cases h; exact fieldE_error h3
        · rcases h4 : fieldE o "maxmempool" JValue.asU64 "u64" with e4 | c4 <;> rw [h4] at h
          · cases h; exact fieldE_error h4
          · cases h

/-- A `parse_network` failure is always an `InvalidResponse`. -/
theorem parse_network_error {o : List (String × JValue)} {e : RpcError}
    (h : parse_network o = .error e) : ∃ msg, e = .InvalidResponse msg := by
  unfold parse_network at h
  rcases h1 : fieldE o "version" JValue.asI64 "i64" with e1 | c1 <;> rw [h1] at h
  · cases h; exact fieldE_error h1
  · rcases h2 : stringE o "subversion" with e2 | c2 <;> rw [h2] at h
    · cases h; exact fieldE_error h2
    · rcases h3 : fieldE o "protocolversion" JValue.asI64 "i64" with e3 | c3 <;> rw [h3] at h
      · cases h; exact fieldE_error h3
      · rcases h4 : fieldE o "connections" JValue.asI64 "i64" with e4 | c4 <;> rw [h4] at h
        · cases h; exact fieldE_error h4
        · cases h

/-- A `parse_traffic` failure is always an `InvalidResponse`. -/
theorem parse_traffic_error {o : List (String × JValue)} {e : RpcError}
    (h : parse_traffic o = .error e) : ∃ msg, e = .InvalidResponse msg := by
  unfold parse_traffic at h
  rcases h1 : fieldE o "totalbytesrecv" JValue.asU64 "u64" with e1 | c1 <;> rw [h1] at h
  · cases h; exact fieldE_error h1
  · rcases h2 : fieldE o "totalbytessent" JValue.asU64 "u64" with e2 | c2 <;> rw [h2] at h
    · cases h; exact fieldE_error h2
    · cases h

/-- `parse_chain` succeeds exactly on the expected shape. -/
theorem parse_chain_isOk (v : JValue) : (parse_chain v).isOk = chainShapeOk v := by
  unfold parse_chain chainShapeOk stringE fieldE hasFieldOf
  rcases v.asObject with _ | o
  · rfl
  · simp only []
    rcases (jlookup o "chain").bind JValue.asStr with _ | c1 <;>
    rcases (jlookup o "blocks").bind JValue.asU64 with _ | c2 <;>
    rcases (jlookup o "headers").bind JValue.asU64 with _ | c3 <;>
    rcases (jlookup o "verificationprogress").bind JValue.asF64 with _ | c4 <;>
    rfl

/-- `parse_mempool` succeeds exactly on the expected shape. -/
theorem parse_mempool_isOk (v : JValue) : (parse_mempool v).isOk = mempoolShapeOk v := by
  unfold parse_mempool mempoolShapeOk fieldE hasFieldOf
  rcases v.asObject with _ | o
  · rfl
  · simp only []
    rcases (jlookup o "size").bind JValue.asU64 with _ | c1 <;>
    rcases (jlookup o "bytes").bind JValue.asU64 with _ | c2 <;>
    rcases (jlookup o "usage").bind JValue.asU64 with _ | c3 <;>
    rcases (jlookup o "maxmempool").bind JValue.asU64 with _ | c4 <;>
    rfl

/-- The network-field extraction succeeds exactly on the expected
fields. -/
theorem parse_network_isOk (o : List (String × JValue)) :
    (parse_network o).isOk = networkFieldsOk o := by
  unfold parse_network networkFieldsOk stringE fieldE hasFieldOf
  rcases (jlookup o "version").bind JValue.asI64 with _ | c1 <;>
  rcases (jlookup o "subversion").bind JValue.asStr with _ | c2 <;>
  rcases (jlookup o "protocolversion").bind JValue.asI64 with _ | c3 <;>
  rcases (jlookup o "connections").bind JValue.asI64 with _ | c4 <;>
  rfl

/-- The traffic-field extraction succeeds exactly on the expected
fields. -/
theorem parse_traffic_isOk (o : List (String × JValue)) :
    (parse_traffic o).isOk = trafficFieldsOk o := by
  unfold parse_traffic trafficFieldsOk fieldE hasFieldOf
  rcases (jlookup o "totalbytesrecv").bind JValue.asU64 with _ | c1 <;>
  rcases (jlookup o "totalbytessent").bind JValue.asU64 with _ | c2 <;>
  rfl

/-- Success of an `Except` computation as an existence statement. -/
theorem except_isOk_iff {ε α : Type} (x : Except ε α) :
    x.isOk = true ↔ ∃ v, x = .ok v := by
  rcases x with e | v <;> simp [Except.isOk, Except.toBool]

/-- `build_snapshot` succeeds exactly on the expected shape. -/
theorem build_snapshot_isOk (responses : List JValue) :
    (build_snapshot responses).isOk = snapshotShapeOk responses := by
  unfold build_snapshot snapshotShapeOk
  by_cases hlen : responses.length = 6
  · rw [if_neg (by omega)]
    have hbeq : (responses.length == 6) = true := by simpa using hlen
    rw [hbeq]
    rcases (responses.getD 1 .null).asObject with _ | netObj <;>
    rcases (responses.getD 3 .null).asArray with _ | peers <;>
    rcases (responses.getD 4 .null).asU64 with _ | up <;>
    rcases (responses.getD 5 .null).asObject with _ | trafObj <;>
    simp only []
    all_goals try (simp [Except.isOk, Except.toBool]; done)
    rw [← parse_chain_isOk, ← parse_mempool_isOk, ← parse_network_isOk, ← parse_traffic_isOk]
    rcases parse_chain (responses.getD 0 .null) with e0 | c0 <;>
    rcases parse_mempool (responses.getD 2 .null) with e2 | c2 <;>
    rcases parse_network netObj with e3 | c3 <;>
    rcases parse_traffic trafObj with e4 | c4 <;>
    simp [Except.isOk, Except.toBool]
  · rw [if_pos hlen]
    have hbeq : (responses.length == 6) = false := by simpa using hlen
    rw [hbeq]
    rfl

/-- A `build_snapshot` failure is always an `InvalidResponse`. -/
theorem build_snapshot_error {responses : List JValue} {e : RpcError}
    (h : build_snapshot responses = .error e) : ∃ msg, e = .InvalidResponse msg := by
  unfold build_snapshot at h
  split at h
  · exact ⟨_, ((Except.error.injEq _ _).mp h).symm⟩
  · split at h
    · exact ⟨_, ((Except.error.injEq _ _).mp h).symm⟩
    · split at h
      · exact ⟨_, ((Except.error.injEq _ _).mp h).symm⟩
      · split at h
        · exact ⟨_, ((Except.error.injEq _ _).mp h).symm⟩
        · split at h
          · exact ⟨_, ((Except.error.injEq _ _).mp h).symm⟩
          · split at h
            · rename_i e0 h0
              cases h
              exact parse_chain_error h0
            · split at h
              · rename_i e2 h2
                cases h
                exact parse_mempool_error h2
              · split at h
                · rename_i e3 h3
                  cases h
                  exact parse_network_error h3
                · split at h
                  · rename_i e4 h4
                    cases h
                    exact parse_traffic_error h4
                  · cases h

/-- The extracted peer id of one peer entry: `none` exactly when the loop
skips the entry. -/
theorem peerEntry_id (p : JValue) :
    (peerEntry p).map (fun x => x.1.id) =
      p.asObject.bind (fun o => (jlookup o "id").bind JValue.asI64) := by
  unfold peerEntry
  rcases p.asObject with _ | o
  · rfl
  · rcases hx : (jlookup o "id").bind JValue.asI64 with _ | id <;> simp [hx]

/-- The peer loop keeps exactly the entries with a valid id, in order. -/
theorem buildPeers_ids_aux (l : List JValue) :
    ∀ acc : List PeerSummary × List (Int × JValue),
      ((l.foldl (fun acc peer =>
          match peerEntry peer with
          | none => acc
          | some (ps, kv) => (acc.1 ++ [ps], mapInsert acc.2 kv.1 kv.2)) acc).1.map
        PeerSummary.id) = acc.1.map PeerSummary.id ++ validPeerIds l := by
  induction l with
  | nil =>
    intro acc
    simp [validPeerIds]
  | cons p l ih =>
    intro acc
    have hid := peerEntry_id p
    rcases hpe : peerEntry p with _ | ⟨ps, kv⟩ <;> rw [hpe] at hid
    · have hf : p.asObject.bind (fun o => (jlookup o "id").bind JValue.asI64) = none := by
        simpa using hid.symm
      simp only [List.foldl_cons, hpe]
      rw [ih acc]
      congr 1
      unfold validPeerIds
      simp only [List.filterMap_cons, hf]
    · have hf : p.asObject.bind (fun o => (jlookup o "id").bind JValue.asI64) = some ps.id := by
        simpa using hid.symm
      simp only [List.foldl_cons, hpe]
      rw [ih (acc.1 ++ [ps], mapInsert acc.2 kv.1 kv.2)]
      unfold validPeerIds
      simp only [List.filterMap_cons, hf, List.map_append, List.map_cons, List.map_nil]
      simp [List.append_assoc]

/-- The ids of the peers kept by `buildPeers`. -/
theorem buildPeers_ids (l : List JValue) :
    (buildPeers l).1.map PeerSummary.id = validPeerIds l := by
  have h := buildPeers_ids_aux l ([], [])
  simpa [buildPeers] using h

/-- The peer list of a built snapshot. -/
theorem build_snapshot_peers {responses : List JValue} {snap : DashboardSnapshot}
    (h : build_snapshot responses = .ok snap) :
    snap.peers.map PeerSummary.id =
      validPeerIds ((responses.getD 3 .null).asArray.getD []) := by
  unfold build_snapshot at h
  split at h
  · cases h
  · split at h
    · cases h
    · split at h
      · cases h
      · rename_i peers hpeers
        split at h
        · cases h
        · split at h
          · cases h
          · split at h
            · cases h
            · split at h
              · cases h
              · split at h
                · cases h
                · split at h
                  · cases h
                  · cases h
                    rw [hpeers]
                    simp only [Option.getD_some]
                    exact buildPeers_ids peers

/-- Claim C3: full-snapshot parsing is all-or-nothing — every failure of
`build_snapshot` is an `InvalidResponse` (in particular whenever the
response count is not 6); it succeeds exactly when every expected field of
every sub-response is present and of the expected type; and on success the
kept peers are exactly the peer entries carrying an `id` field, in order —
entries lacking one are silently skipped. -/
theorem build_snapshot_all_or_nothing :
    (∀ responses e, build_snapshot responses = .error e →
      ∃ msg, e = .InvalidResponse msg) ∧
    (∀ responses : List JValue, responses.length ≠ 6 →
      ∃ msg, build_snapshot responses = .error (.InvalidResponse msg)) ∧
    (∀ responses, (∃ snap, build_snapshot responses = .ok snap) ↔
      snapshotShapeOk responses = true) ∧
    (∀ responses snap, build_snapshot responses = .ok snap →
      snap.peers.map PeerSummary.id =
        validPeerIds ((responses.getD 3 .null).asArray.getD [])) := by
  refine ⟨fun responses e h => build_snapshot_error h, ?_, ?_, ?_⟩
  · intro responses h
    unfold build_snapshot
    rw [if_pos h]
    exact ⟨_, rfl⟩
  · intro responses
    rw [← build_snapshot_isOk]
    exact (except_isOk_iff _).symm
  · intro responses snap h
    exact build_snapshot_peers h

/-- Witness for C3 at a wrong-count input and at a well-formed fixture
with one valid peer, one id-less peer and one non-object peer entry. -/
theorem build_snapshot_all_or_nothing_witness :
    (∃ msg, build_snapshot [] = .error (.InvalidResponse msg)) ∧
    ∃ snap,
      build_snapshot
        [.obj [("chain", .str "regtest"), ("blocks", .num (.posInt 101)),
               ("headers", .num (.posInt 101)), ("verificationprogress", .num (.double 0))],
         .obj [("version", .num (.posInt 299900)), ("subversion", .str "/Satoshi/"),
               ("protocolversion", .num (.posInt 70016)), ("connections", .num (.posInt 8))],
         .obj [("size", .num (.posInt 2)), ("bytes", .num (.posInt 1234)),
               ("usage", .num (.posInt 5678)), ("maxmempool", .num (.posInt 300000000))],
         .arr [.obj [("id", .num (.posInt 1))], .obj [("addr", .str "x")], .str "junk"],
         .num (.posInt 123),
         .obj [("totalbytesrecv", .num (.posInt 1000)),
               ("totalbytessent", .num (.posInt 2000))]] = .ok snap ∧
      snap.peers.map PeerSummary.id = [1] := by
  constructor
  · exact build_snapshot_all_or_nothing.2.1 [] (by decide)
  · obtain ⟨snap, hsnap⟩ := (build_snapshot_all_or_nothing.2.2.1
      [.obj [("chain", .str "regtest"), ("blocks", .num (.posInt 101)),
             ("headers", .num (.posInt 101)), ("verificationprogress", .num (.double 0))],
       .obj [("version", .num (.posInt 299900)), ("subversion", .str "/Satoshi/"),
             ("protocolversion", .num (.posInt 70016)), ("connections", .num (.posInt 8))],
       .obj [("size", .num (.posInt 2)), ("bytes", .num (.posInt 1234)),
             ("usage", .num (.posInt 5678)), ("maxmempool", .num (.posInt 300000000))],
       .arr [.obj [("id", .num (.posInt 1))], .obj [("addr", .str "x")], .str "junk"],
       .num (.posInt 123),
       .obj [("totalbytesrecv", .num (.posInt 1000)),
             ("totalbytessent", .num (.posInt 2000))]]).mpr (by decide)
    refine ⟨snap, hsnap, ?_⟩
    have h := build_snapshot_all_or_nothing.2.2.2 _ snap hsnap
    rw [h]
    decide

/-! ### C1: host-safety predicate -/

/-- Masking with a high-bits mask `2^16 - 2^k` is clearing the low `k`
bits, on 16-bit values. -/
theorem land_high_mask (k m x : Nat) (hk : k ≤ 16) (hm : m = (2 ^ (16 - k) - 1) <<< k)
    (hx : x < 65536) : x &&& m = x >>> k <<< k := by
  subst hm
  apply Nat.eq_of_testBit_eq
  intro i
  rw [Nat.testBit_land, Nat.testBit_shiftLeft, Nat.testBit_shiftLeft,
    Nat.testBit_two_pow_sub_one, Nat.testBit_shiftRight]
  rcases lt_or_ge i k with hik | hik
  · simp [Nat.not_le.mpr hik]
  · rcases lt_or_ge i 16 with hi16 | hi16
    · have h1 : k + (i - k) = i := by omega
      have h2 : i - k < 16 - k := by omega
      simp [hik, h1, h2]
    · have hpow : (65536 : Nat) ≤ 2 ^ i := by
        calc (65536 : Nat) = 2 ^ 16 := by norm_num
        _ ≤ 2 ^ i := Nat.pow_le_pow_right (by norm_num) hi16
      have hxz : x.testBit i = false := Nat.testBit_lt_two_pow (by omega)
      have hxz' : x.testBit (k + (i - k)) = false := by
        rw [show k + (i - k) = i by omega]
        exact hxz
      simp [hxz, hxz']

/-- `fc00::/7` as a range on the first 16-bit segment. -/
theorem unique_local_range (x : Nat) (hx : x < 65536) :
    (x &&& 0xfe00 = 0xfc00) ↔ (0xfc00 ≤ x ∧ x ≤ 0xfdff) := by
  have h := land_high_mask 9 0xfe00 x (by norm_num) (by decide) hx
  rw [h, Nat.shiftRight_eq_div_pow, Nat.shiftLeft_eq]
  norm_num
  omega

/-- `fe80::/10` as a range on the first 16-bit segment. -/
theorem link_local_range (x : Nat) (hx : x < 65536) :
    (x &&& 0xffc0 = 0xfe80) ↔ (0xfe80 ≤ x ∧ x ≤ 0xfebf) := by
  have h := land_high_mask 6 0xffc0 x (by norm_num) (by decide) hx
  rw [h, Nat.shiftRight_eq_div_pow, Nat.shiftLeft_eq]
  norm_num
  omega

/-- The IPv4 classification matches the spec's listed ranges. -/
theorem safe_v4_iff (q : Ipv4Addr) :
    (q.is_loopback || q.is_private || is_cgnat q) = true ↔ specSafeV4 q := by
  obtain ⟨a, b, c, d⟩ := q
  simp only [Ipv4Addr.is_loopback, Ipv4Addr.is_private, is_cgnat, specSafeV4, specRfc1918,
    specCgnat, Bool.or_eq_true, Bool.and_eq_true, beq_iff_eq, decide_eq_true_eq]
  omega

/-- The mapped-IPv4 acceptance of the core client matches the spec's
"private or loopback". -/
theorem mapped_client_iff (m : Ipv4Addr) :
    (m.is_loopback || m.is_private) = true ↔ (m.a = 127 ∨ specRfc1918 m) := by
  obtain ⟨a, b, c, d⟩ := m
  simp only [Ipv4Addr.is_loopback, Ipv4Addr.is_private, specRfc1918, Bool.or_eq_true,
    Bool.and_eq_true, beq_iff_eq, decide_eq_true_eq]
  omega

/-- The mapped-IPv4 acceptance of the config copy additionally admits
CGNAT. -/
theorem mapped_config_iff (m : Ipv4Addr) :
    (m.is_loopback || m.is_private || is_cgnat m) = true ↔
      (m.a = 127 ∨ specRfc1918 m ∨ specCgnat m) := by
  obtain ⟨a, b, c, d⟩ := m
  simp only [Ipv4Addr.is_loopback, Ipv4Addr.is_private, is_cgnat, specRfc1918, specCgnat,
    Bool.or_eq_true, Bool.and_eq_true, beq_iff_eq, decide_eq_true_eq]
  omega

/-- The IPv6 classification against the spec classes, generic in the
treatment of a mapped IPv4 address. -/
theorem safe_v6_iff_gen (pass4 : Ipv4Addr → Bool) (spec4 : Ipv4Addr → Prop)
    (hp : ∀ m, pass4 m = true ↔ spec4 m) (q : Ipv6Addr) (hb' : q.s0 < 65536) :
    (q.is_loopback || q.is_unique_local || q.is_unicast_link_local ||
      (match q.to_ipv4_mapped with
       | some m => pass4 m
       | none => false)) = true ↔
    (q = ⟨0, 0, 0, 0, 0, 0, 0, 1⟩ ∨ (0xfc00 ≤ q.s0 ∧ q.s0 ≤ 0xfdff) ∨
      (0xfe80 ≤ q.s0 ∧ q.s0 ≤ 0xfebf) ∨
      ∃ m, q.to_ipv4_mapped = some m ∧ spec4 m) := by
  obtain ⟨s0, s1, s2, s3, s4, s5, s6, s7⟩ := q
  simp only [Ipv6Addr.is_loopback, Ipv6Addr.is_unique_local, Ipv6Addr.is_unicast_link_local,
    Ipv6Addr.to_ipv4_mapped, Bool.or_eq_true, Bool.and_eq_true, beq_iff_eq,
    Ipv6Addr.mk.injEq]
  rw [unique_local_range s0 hb', link_local_range s0 hb']
  by_cases hm : ((((s0 = 0 ∧ s1 = 0) ∧ s2 = 0) ∧ s3 = 0) ∧ s4 = 0) ∧ s5 = 65535
  · rw [if_pos hm]
    have hred : (match some (⟨s6 / 256, s6 % 256, s7 / 256, s7 % 256⟩ : Ipv4Addr) with
        | some m => pass4 m
        | none => false) = pass4 ⟨s6 / 256, s6 % 256, s7 / 256, s7 % 256⟩ := rfl
    rw [hred, hp]
    simp only [Option.some.injEq, exists_eq_left', exists_eq_left]
    obtain ⟨⟨⟨⟨⟨h0, h1⟩, h2⟩, h3⟩, h4⟩, h5⟩ := hm
    subst h0 h1 h2 h3 h4 h5
    constructor
    · rintro (((hlb | hr) | hr) | h)
      · exfalso
        omega
      · exfalso
        omega
      · exfalso
        omega
      · exact Or.inr (Or.inr (Or.inr h))
    · rintro (hlb | hr | hr | h)
      · exfalso
        omega
      · exfalso
        omega
      · exfalso
        omega
      · exact Or.inr h
  · rw [if_neg hm]
    have hred : (match (none : Option Ipv4Addr) with
        | some m => pass4 m
        | none => false) = false := rfl
    rw [hred]
    simp only [Bool.false_eq_true, or_false]
    constructor
    · rintro ((hlb | hu) | hl)
      · exact Or.inl (by tauto)
      · exact Or.inr (Or.inl hu)
      · exact Or.inr (Or.inr (Or.inl hl))
    · rintro (hlb | hu | hl | ⟨m, hm', hp'⟩)
      · exact Or.inl (Or.inl (by tauto))
      · exact Or.inl (Or.inr hu)
      · exact Or.inr hl
      · cases hm'

/-- The core-client IP classification matches the spec classes. -/
theorem safe_ip_client_iff (ip : IpAddr) (hb : ipSeg0Bounded ip) :
    is_safe_rpc_ip_client ip = true ↔ specSafeIp ip := by
  rcases ip with q | q
  · exact safe_v4_iff q
  · exact safe_v6_iff_gen (fun m => m.is_loopback || m.is_private) _
      mapped_client_iff q hb

/-- The config-copy IP classification matches the spec classes with the
mapped-CGNAT addition. -/
theorem safe_ip_config_iff (ip : IpAddr) (hb : ipSeg0Bounded ip) :
    is_safe_rpc_ip_config ip = true ↔ specSafeIpConfig ip := by
  rcases ip with q | q
  · exact safe_v4_iff q
  · exact safe_v6_iff_gen (fun m => m.is_loopback || m.is_private || is_cgnat m) _
      mapped_config_iff q hb

/-- The digit loop never exceeds the checked bound. -/
theorem readDigitsLoop_le {radix maxVal : Nat} {md : Option Nat} :
    ∀ (l : List Char) (acc count : Nat), acc ≤ maxVal →
      ∀ {v c rest}, readDigitsLoop radix maxVal md l acc count = some (v, c, rest) →
        v ≤ maxVal := by
  intro l
  induction l with
  | nil =>
    intro acc count hacc v c rest h
    unfold readDigitsLoop at h
    cases h
    exact hacc
  | cons ch tl ih =>
    intro acc count hacc v c rest h
    unfold readDigitsLoop at h
    rcases hd : digitVal radix ch with _ | d <;> rw [hd] at h
    · cases h
      exact hacc
    · simp only [] at h
      split at h
      · cases h
      · rename_i hov
        rcases md with _ | m
        · exact ih _ _ (by omega) h
        · simp only [] at h
          split at h
          · cases h
          · exact ih _ _ (by omega) h

/-- A parsed number never exceeds the checked bound. -/
theorem read_number_le {radix maxVal : Nat} {md : Option Nat} {azp : Bool}
    {l : List Char} {v : Nat} {rest : List Char}
    (h : read_number radix maxVal md azp l = some (v, rest)) : v ≤ maxVal := by
  unfold read_number at h
  rcases hd : readDigitsLoop radix maxVal md l 0 0 with _ | ⟨v0, c0, r0⟩ <;> rw [hd] at h
  · cases h
  · simp only [] at h
    split at h
    · cases h
    · split at h
      · cases h
      · cases h
        exact readDigitsLoop_le l 0 0 (Nat.zero_le _) hd

/-- Parsed IPv4 octets are bytes. -/
theorem read_ipv4_le {l : List Char} {q : Ipv4Addr} {rest : List Char}
    (h : read_ipv4 l = some (q, rest)) :
    q.a ≤ 255 ∧ q.b ≤ 255 ∧ q.c ≤ 255 ∧ q.d ≤ 255 := by
  unfold read_ipv4 at h
  rcases h1 : read_number 10 255 (some 3) false l with _ | ⟨a, l1⟩ <;>
    rw [h1] at h <;> simp only [] at h
  · cases h
  rcases h2 : expectChar '.' l1 with _ | l2 <;> rw [h2] at h <;> simp only [] at h
  · cases h
  rcases h3 : read_number 10 255 (some 3) false l2 with _ | ⟨b, l3⟩ <;>
    rw [h3] at h <;> simp only [] at h
  · cases h
  rcases h4 : expectChar '.' l3 with _ | l4 <;> rw [h4] at h <;> simp only [] at h
  · cases h
  rcases h5 : read_number 10 255 (some 3) false l4 with _ | ⟨c, l5⟩ <;>
    rw [h5] at h <;> simp only [] at h
  · cases h
  rcases h6 : expectChar '.' l5 with _ | l6 <;> rw [h6] at h <;> simp only [] at h
  · cases h
  rcases h7 : read_number 10 255 (some 3) false l6 with _ | ⟨d, l7⟩ <;>
    rw [h7] at h <;> simp only [] at h
  · cases h
  cases h
  exact ⟨read_number_le h1, read_number_le h3, read_number_le h5, read_number_le h7⟩

/-- Every group produced by the group reader fits in 16 bits. -/
theorem read_groups_aux_lt (slots : Nat) :
    ∀ (isFirst : Bool) (l : List Char) (g : Nat),
      g ∈ (read_groups_aux isFirst slots l).1 → g < 65536 := by
  induction slots with
  | zero =>
    intro isFirst l g hg
    simp [read_groups_aux] at hg
  | succ n ih =>
    intro isFirst l g hg
    unfold read_groups_aux at hg
    rcases hv : (if 1 ≤ n then (groupSep isFirst l).bind tryMappedV4 else none) with
      _ | ⟨g1, g2, rest⟩ <;> rw [hv] at hg <;> simp only [] at hg
    · rcases hn : (groupSep isFirst l).bind (read_number 16 65535 (some 4) true) with
        _ | ⟨g0, rest⟩ <;> rw [hn] at hg <;> simp only [] at hg
      · simp at hg
      · rcases hrec : read_groups_aux false n rest with ⟨gs, sawV4, rest2⟩
        rw [hrec] at hg
        simp only [] at hg
        rcases List.mem_cons.mp hg with h0 | htl
        · subst h0
          rcases Option.bind_eq_some.mp hn with ⟨l1, _, hnum⟩
          have := read_number_le hnum
          omega
        · have := ih false rest g
          rw [hrec] at this
          exact this htl
    · have hv2 : (groupSep isFirst l).bind tryMappedV4 = some (g1, g2, rest) := by
        by_cases h1n : 1 ≤ n
        · rwa [if_pos h1n] at hv
        · rw [if_neg h1n] at hv
          cases hv
      rcases Option.bind_eq_some.mp hv2 with ⟨l1, _, hm⟩
      unfold tryMappedV4 at hm
      rcases h4 : read_ipv4 l1 with _ | ⟨q, r⟩ <;> rw [h4] at hm <;> simp only [] at hm
      · cases hm
      · cases hm
        obtain ⟨ha, hb, hc, hd⟩ := read_ipv4_le h4
        simp at hg
        rcases hg with h1 | h2
        · subst h1
          omega
        · subst h2
          omega

/-- When every group is 16-bit, so is the first segment of the assembled
address. -/
theorem ipv6OfGroups_s0_lt (gs : List Nat) (h : ∀ g ∈ gs, g < 65536) :
    (ipv6OfGroups gs).s0 < 65536 := by
  cases gs with
  | nil => simp [ipv6OfGroups, List.getD]
  | cons g tl =>
    have := h g (List.mem_cons_self g tl)
    simpa [ipv6OfGroups, List.getD] using this

/-- Any IPv6 literal the parser accepts has a 16-bit first segment. -/
theorem read_ipv6_s0_lt {l : List Char} {q : Ipv6Addr} {rest : List Char}
    (h : read_ipv6 l = some (q, rest)) : q.s0 < 65536 := by
  unfold read_ipv6 at h
  rcases hh : read_groups_aux true 8 l with ⟨head, headV4, r⟩
  rw [hh] at h
  have hhead : ∀ g ∈ head, g < 65536 := by
    intro g hg
    have := read_groups_aux_lt 8 true l g
    rw [hh] at this
    exact this hg
  simp only [] at h
  split at h
  · cases h
    exact ipv6OfGroups_s0_lt head hhead
  · split at h
    · cases h
    · rcases h1 : expectChar ':' r with _ | r1 <;> rw [h1] at h <;> simp only [] at h
      · cases h
      rcases h2 : expectChar ':' r1 with _ | r2 <;> rw [h2] at h <;> simp only [] at h
      · cases h
      rcases ht : read_groups_aux true (8 - (head.length + 1)) r2 with ⟨tail, sv, r3⟩
      rw [ht] at h
      simp only [] at h
      cases h
      apply ipv6OfGroups_s0_lt
      intro g hg
      rcases List.mem_append.mp hg with hg1 | hg2
      · rcases List.mem_append.mp hg1 with hg11 | hg12
        · exact hhead g hg11
        · have := List.eq_of_mem_replicate hg12
          omega
      · have := read_groups_aux_lt (8 - (head.length + 1)) true r2 g
        rw [ht] at this
        exact this hg2

/-- Any IP literal the parser accepts satisfies the segment-width
invariant. -/
theorem parse_ip_bounded {host : List Char} {ip : IpAddr}
    (h : parse_ip host = some ip) : ipSeg0Bounded ip := by
  unfold parse_ip at h
  split at h
  · cases h
    trivial
  · split at h
    · cases h
      rename_i q heq
      exact read_ipv6_s0_lt heq
    · cases h

/-- The common host-safety frame agrees with the spec-side URL condition
whenever the IP classifications agree on parsed literals. -/
theorem hostSafeWith_iff (ipSafe : IpAddr → Bool) (ipSpec : IpAddr → Prop)
    (hiff : ∀ ip, ipSeg0Bounded ip → (ipSafe ip = true ↔ ipSpec ip))
    (url : String) :
    hostSafeWith ipSafe url.data = true ↔ specSafeUrl ipSpec url := by
  unfold hostSafeWith specSafeUrl
  rcases hx : extract_host url.data with _ | host
  · simp
  · simp only [Option.some.injEq]
    by_cases hloc : eqIgnoreAsciiCase host ("localhost".data) = true
    · rw [if_pos hloc]
      simp only [true_iff]
      exact ⟨host, rfl, Or.inl hloc⟩
    · rw [if_neg hloc]
      rcases hp : parse_ip host with _ | ip
      · simp only [Bool.false_eq_true, false_iff]
        rintro ⟨h2, rfl, hcond⟩
        rcases hcond with hl | ⟨ip, hip, _⟩
        · exact hloc hl
        · rw [hp] at hip
          cases hip
      · rw [hiff ip (parse_ip_bounded hp)]
        constructor
        · intro hs
          exact ⟨host, rfl, Or.inr ⟨ip, hp, hs⟩⟩
        · rintro ⟨h2, rfl, hcond⟩
          rcases hcond with hl | ⟨ip2, hip2, hsp⟩
          · exact absurd hl hloc
          · rw [hp] at hip2
            cases hip2
            exact hsp

/-- C1 (amended): each copy of `is_safe_rpc_host` accepts a URL exactly
when its authority host is `localhost` (ASCII case-insensitive) or an IP
literal in that copy's safe classes — IPv4 loopback, RFC1918 or CGNAT;
IPv6 loopback, unique-local `fc00::/7`, link-local `fe80::/10`; and an
IPv4-mapped IPv6 address whose mapped address is loopback or private,
where the `src/rpc.rs` copy additionally accepts a mapped CGNAT
address. -/
theorem is_safe_rpc_host_spec :
    (∀ url, is_safe_rpc_host_client url = true ↔ specSafeUrl specSafeIp url) ∧
    (∀ url, is_safe_rpc_host_config url = true ↔ specSafeUrl specSafeIpConfig url) :=
  ⟨fun url => hostSafeWith_iff _ _ safe_ip_client_iff url,
   fun url => hostSafeWith_iff _ _ safe_ip_config_iff url⟩

/-- C1 counterexample: the `src/rpc.rs` copy accepts the IPv4-mapped CGNAT
literal `::ffff:100.64.1.2`, which lies outside the claim's uniform list
of safe classes. -/
theorem is_safe_rpc_host_cex :
    ¬ (is_safe_rpc_host_config "http://[::ffff:100.64.1.2]:8332" = true ↔
       specSafeUrl specSafeIp "http://[::ffff:100.64.1.2]:8332") := by
  intro h
  obtain ⟨host, hhost, hcond⟩ := h.mp (by decide)
  have hx : extract_host ("http://[::ffff:100.64.1.2]:8332").data =
      some ("::ffff:100.64.1.2").data := by decide
  rw [hx, Option.some.injEq] at hhost
  subst hhost
  rcases hcond with hl | ⟨ip, hip, hsp⟩
  · exact absurd hl (by decide)
  · have hp : parse_ip ("::ffff:100.64.1.2").data =
        some (.v6 ⟨0, 0, 0, 0, 0, 0xffff, 0x6440, 0x0102⟩) := by decide
    rw [hp, Option.some.injEq] at hip
    subst hip
    rcases hsp with h1 | h1 | h1 | ⟨m, hm, hm2⟩
    · exact absurd h1 (by decide)
    · exact absurd h1 (by decide)
    · exact absurd h1 (by decide)
    · have hmv : Ipv6Addr.to_ipv4_mapped ⟨0, 0, 0, 0, 0, 0xffff, 0x6440, 0x0102⟩ =
          some ⟨100, 64, 1, 2⟩ := by decide
      rw [hmv, Option.some.injEq] at hm
      subst hm
      rcases hm2 with h1 | h1 | h1 | h1
      · exact absurd h1 (by decide)
      · exact absurd h1 (by decide)
      · exact absurd h1 (by decide)
      · exact absurd h1 (by decide)

/-- C1 witness: `http://127.0.0.1:8332` is accepted by the client copy and
lands in the spec classes. -/
theorem is_safe_rpc_host_spec_witness :
    specSafeUrl specSafeIp "http://127.0.0.1:8332" :=
  (is_safe_rpc_host_spec.1 "http://127.0.0.1:8332").mp (by decide)
